import Mathlib

/-!
# Verification of the dbs-versionize schema-evolution codec

Shallow embedding of the version-gated binary serialization engine of the
`dbs-versionize` crate (repository `wllenyj/dragonball-sandbox`).  The engine
itself (the `Versionize` derive expansion, the primitive codec, `VersionMap`
and the `FamStructWrapper` support) ships outside the `src/` tree of this
checkout; only its integration tests (`crates/dbs-versionize/test-data/tests/test.rs`)
are present.  The engine is therefore modelled from the specification, with
every behavioural choice cross-checked against the hardcoded snapshots and the
expected values asserted by those tests: the concrete structures below
(`TestStruct`, `State`, `Device`, the FAM message family, ...) are transcribed
field by field from the test file, and theorems replay the tests' serialize /
deserialize scenarios byte for byte.

Bytes are modelled as `List Nat` (each entry one octet), machine integers as
`Nat` / `Int` with explicit two's-complement conversion, and fallible
operations return `Except VersionizeError`.
-/

namespace DV

/-- Modelled from the spec: a Version is an ordered (major, minor, patch)
triple of non-negative integers; the unit of schema evolution. -/
structure Version where
  major : Nat
  minor : Nat
  patch : Nat
deriving DecidableEq

/-- Shorthand constructor for version triples. -/
def mkV (a b c : Nat) : Version := ⟨a, b, c⟩

/-- Modelled from the spec: the total order on versions is lexicographic on
(major, minor, patch).  Boolean strict comparison. -/
def Version.lt (a b : Version) : Bool :=
  if a.major < b.major then true
  else if b.major < a.major then false
  else if a.minor < b.minor then true
  else if b.minor < a.minor then false
  else decide (a.patch < b.patch)

/-- Boolean non-strict comparison derived from `Version.lt`. -/
def Version.le (a b : Version) : Bool := !(Version.lt b a)

/-- Modelled from the spec: the three error kinds of the engine (`Serialize`,
`Deserialize`, `Semantic`), each carrying a human-readable message. -/
inductive VersionizeError where
  | Serialize (msg : String)
  | Deserialize (msg : String)
  | Semantic (msg : String)
deriving DecidableEq

/-- Result type of every encode/decode operation. -/
abbrev VResult (α : Type) := Except VersionizeError α

instance {α : Type} [DecidableEq α] : DecidableEq (VResult α) := by
  unfold VResult
  exact fun a b => by
    cases a <;> cases b
    case ok.ok x y =>
      exact if h : x = y then .isTrue (by rw [h]) else .isFalse (by simp [h])
    case error.error x y =>
      exact if h : x = y then .isTrue (by rw [h]) else .isFalse (by simp [h])
    case ok.error x y => exact .isFalse (by simp)
    case error.ok x y => exact .isFalse (by simp)

/-- The error produced when the byte source runs dry (the source formats the
underlying io error; the exact io text is not load-bearing here). -/
def eofError : VersionizeError := .Deserialize "UnexpectedEof"

/-- Modelled from the spec: the version gate of a field or enum variant, a
half-open interval [start, stop).  A missing start bound means the minimum
version, a missing stop bound means "still present". -/
structure VersionBounds where
  start : Version := ⟨0, 0, 0⟩
  stop : Option Version := none

/-- Modelled from the spec: a field/variant with bounds [start, stop) is
present at target version V iff start ≤ V < stop. -/
def presentAt (b : VersionBounds) (vv : Version) : Bool :=
  Version.le b.start vv &&
    (match b.stop with
     | none => true
     | some e => Version.lt vv e)

/-! ## Primitive codec -/

/-- Little-endian encoding of `x` on `w` bytes (higher bits dropped). -/
def encLE : Nat → Nat → List Nat
  | 0, _ => []
  | w + 1, x => x % 256 :: encLE w (x / 256)

/-- Read `w` little-endian bytes into a natural number. -/
def readLE : Nat → List Nat → VResult (Nat × List Nat)
  | 0, bs => .ok (0, bs)
  | _ + 1, [] => .error eofError
  | w + 1, b :: bs =>
    match readLE w bs with
    | .ok (hi, rest) => .ok (b + 256 * hi, rest)
    | .error e => .error e

/-- Two's-complement representation of the integer `x` on `w` bytes. -/
def toTwos (w : Nat) (x : Int) : Nat := (x % ((256 : Int) ^ w)).toNat

/-- Reinterpret a `w`-byte unsigned value as a signed two's-complement one. -/
def fromTwos (w : Nat) (n : Nat) : Int :=
  if 2 * n < 256 ^ w then (n : Int) else (n : Int) - (256 : Int) ^ w

/-- Signed little-endian encoding on `w` bytes (two's complement). -/
def encInt (w : Nat) (x : Int) : List Nat := encLE w (toTwos w x)

/-- Read a signed `w`-byte little-endian integer. -/
def readInt (w : Nat) (bs : List Nat) : VResult (Int × List Nat) :=
  match readLE w bs with
  | .ok (n, rest) => .ok (fromTwos w n, rest)
  | .error e => .error e

/-- Boolean wire form: one byte, 0 = false, nonzero = true. -/
def encBool (b : Bool) : List Nat := [if b then 1 else 0]

/-- Read one byte as a boolean. -/
def readBool : List Nat → VResult (Bool × List Nat)
  | [] => .error eofError
  | b :: bs => .ok (decide (b ≠ 0), bs)

/-- Option wire form: one presence byte, then the payload iff present. -/
def encOpt {α : Type} (enc : α → List Nat) : Option α → List Nat
  | none => [0]
  | some x => 1 :: enc x

/-- Read an optional value: presence byte 0 yields `none` and consumes
nothing further; presence byte 1 is followed by the payload. -/
def readOpt {α : Type} (rd : List Nat → VResult (α × List Nat)) :
    List Nat → VResult (Option α × List Nat)
  | [] => .error eofError
  | 0 :: bs => .ok (none, bs)
  | 1 :: bs =>
    match rd bs with
    | .ok (x, rest) => .ok (some x, rest)
    | .error e => .error e
  | _ :: _ => .error (.Deserialize "invalid Option tag")

/-- Concatenated encodings of the elements of a list (no count on the wire:
used for fixed arrays and for count-elsewhere sequences). -/
def encEach {α : Type} (enc : α → List Nat) (l : List α) : List Nat :=
  (l.map enc).flatten

/-- Read exactly `n` consecutive elements. -/
def readN {α : Type} (rd : List Nat → VResult (α × List Nat)) :
    Nat → List Nat → VResult (List α × List Nat)
  | 0, bs => .ok ([], bs)
  | n + 1, bs =>
    match rd bs with
    | .ok (x, rest) =>
      match readN rd n rest with
      | .ok (xs, rest2) => .ok (x :: xs, rest2)
      | .error e => .error e
    | .error e => .error e

/-- Dynamic sequence wire form: 8-byte unsigned element count, then each
element in order.  Strings use the same shape with byte elements. -/
def encSeq {α : Type} (enc : α → List Nat) (l : List α) : List Nat :=
  encLE 8 l.length ++ encEach enc l

/-- Read a dynamic sequence: 8-byte count then that many elements. -/
def readSeq {α : Type} (rd : List Nat → VResult (α × List Nat))
    (bs : List Nat) : VResult (List α × List Nat) :=
  match readLE 8 bs with
  | .ok (n, rest) => readN rd n rest
  | .error e => .error e

/-- One raw byte (the codec's `u8` and Latin-1 `char` form). -/
def readByte : List Nat → VResult (Nat × List Nat)
  | [] => .error eofError
  | b :: bs => .ok (b, bs)

/-! ## Struct engine -/

/-- Modelled from the spec: the compile-time descriptor of one struct field;
version bounds, the field's wire writer and reader, its default-synthesis
function (for fields absent at the source version; covers both a declared
`default_fn` and the type's `Default`), and the optional pre-encode /
post-decode semantic hooks (identity when not declared).  Writers and readers
receive the governing version so nested version-gated types resolve it. -/
structure FieldDesc (σ : Type) where
  bounds : VersionBounds := {}
  write : Version → σ → VResult (List Nat)
  read : Version → σ → List Nat → VResult (σ × List Nat)
  dflt : Version → σ → σ
  serFn : Version → σ → VResult σ := fun _ s => .ok s
  deFn : Version → σ → VResult σ := fun _ s => .ok s

/-- Run the declared pre-encode hooks of all fields, in declaration order,
on the in-memory working copy.  Hooks run unconditionally: the field's own
version gate is never consulted here. -/
def runSerHooks {σ : Type} : List (FieldDesc σ) → Version → σ → VResult σ
  | [], _, s => .ok s
  | f :: fs, vv, s =>
    match f.serFn vv s with
    | .ok s' => runSerHooks fs vv s'
    | .error e => .error e

/-- Run the declared post-decode hooks of all fields, in declaration order,
after every field's value has been settled.  Hooks run unconditionally. -/
def runDeHooks {σ : Type} : List (FieldDesc σ) → Version → σ → VResult σ
  | [], _, s => .ok s
  | f :: fs, vv, s =>
    match f.deFn vv s with
    | .ok s' => runDeHooks fs vv s'
    | .error e => .error e

/-- Write the wire bytes of the fields in declaration order: a field whose
gate is false at the target version contributes zero bytes. -/
def writeFields {σ : Type} : List (FieldDesc σ) → Version → σ → VResult (List Nat)
  | [], _, _ => .ok []
  | f :: fs, vv, s =>
    match (if presentAt f.bounds vv then f.write vv s else .ok []) with
    | .ok bytes =>
      match writeFields fs vv s with
      | .ok rest => .ok (bytes ++ rest)
      | .error e => .error e
    | .error e => .error e

/-- Read the fields in declaration order from the byte source: a field whose
gate is false at the source version is not read; its value is synthesized by
its default function applied at the source version. -/
def readFields {σ : Type} : List (FieldDesc σ) → Version → σ → List Nat →
    VResult (σ × List Nat)
  | [], _, s, bs => .ok (s, bs)
  | f :: fs, vv, s, bs =>
    match (if presentAt f.bounds vv then f.read vv s bs else .ok (f.dflt vv s, bs)) with
    | .ok (s', bs') => readFields fs vv s' bs'
    | .error e => .error e

/-- Modelled from the spec, calibrated against the in-repo tests: struct
encode first runs every declared pre-encode hook on a working copy of the
value (the caller's value is untouched), then writes the present fields of
the hooked copy.  The tests pin this ordering: a hook's mutation to any
field, including its own and earlier-declared ones, is visible in the wire
bytes (`test_famstructwrapper_clone` expects the wire to carry `padding`
10 = 8 + 2 although the hook is declared on the same field;
`test_versionize_struct` expects `u8_1`'s wire byte to carry the +2 added by
the hook of the last field). -/
def serializeStruct {σ : Type} (fs : List (FieldDesc σ)) (vv : Version) (s : σ) :
    VResult (List Nat) :=
  match runSerHooks fs vv s with
  | .ok s' => writeFields fs vv s'
  | .error e => .error e

/-- Struct decode: read/synthesize every field in declaration order starting
from the type's default value, then run every declared post-decode hook in
declaration order on the settled value. -/
def deserializeStruct {σ : Type} (fs : List (FieldDesc σ)) (vv : Version)
    (s0 : σ) (bs : List Nat) : VResult (σ × List Nat) :=
  match readFields fs vv s0 bs with
  | .ok (s, rest) =>
    match runDeHooks fs vv s with
    | .ok s' => .ok (s', rest)
    | .error e => .error e
  | .error e => .error e

/-- A field whose wire value is a plain projection of the state: reader `rd`
and writer `wr` for the field's type, getter/setter into the state, and the
default-synthesis function used when the field is absent. -/
def simpleField {σ α : Type} (b : VersionBounds)
    (rd : Version → List Nat → VResult (α × List Nat))
    (wr : Version → α → VResult (List Nat))
    (get : σ → α) (set : σ → α → σ) (dfv : Version → α) : FieldDesc σ where
  bounds := b
  write := fun vv s => wr vv (get s)
  read := fun vv s bs =>
    match rd vv bs with
    | .ok (x, rest) => .ok (set s x, rest)
    | .error e => .error e
  dflt := fun vv s => set s (dfv vv)

/-- Version-insensitive reader lift. -/
def rdP {α : Type} (rd : List Nat → VResult (α × List Nat)) :
    Version → List Nat → VResult (α × List Nat) := fun _ => rd

/-- Version-insensitive infallible writer lift. -/
def wrP {α : Type} (wr : α → List Nat) : Version → α → VResult (List Nat) :=
  fun _ x => .ok (wr x)

/-! ## The `TestState` enum of the hardcoded-snapshot test -/

/-- Modelled from the spec: `TestState` lives in the `dbs-versionize-tests`
support crate, which is not part of this checkout.  Reconstructed from the
hardcoded snapshots of `test_hardcoded_struct_deserialization`: the variant
at declaration index 1 (`One`) carries a `u32` payload, the variant at index
2 (`Two`) carries a `u64` payload. -/
inductive TestState where
  | Zero
  | One (x : Nat)
  | Two (x : Nat)
deriving DecidableEq

/-- Enum wire form: 4-byte little-endian declaration index, then the payload
values positionally.  `TestState` has no version-gated variants in play. -/
def encodeTestState : Version → TestState → VResult (List Nat)
  | _, .Zero => .ok (encLE 4 0)
  | _, .One x => .ok (encLE 4 1 ++ encLE 4 x)
  | _, .Two x => .ok (encLE 4 2 ++ encLE 8 x)

/-- Decode a `TestState`: read the 4-byte discriminant, then the payload of
the designated variant. -/
def decodeTestState (_vv : Version) (bs : List Nat) : VResult (TestState × List Nat) :=
  match readLE 4 bs with
  | .ok (0, rest) => .ok (.Zero, rest)
  | .ok (1, rest) =>
    match readLE 4 rest with
    | .ok (x, rest2) => .ok (.One x, rest2)
    | .error e => .error e
  | .ok (2, rest) =>
    match readLE 8 rest with
    | .ok (x, rest2) => .ok (.Two x, rest2)
    | .error e => .error e
  | .ok _ => .error (.Deserialize "invalid TestState variant")
  | .error e => .error e

/-! ## `TestStruct` (test_hardcoded_struct_deserialization) -/

/-- In-memory shape of `TestStruct` from the test file.  Floating-point
fields are carried as their raw little-endian bit patterns (the codec writes
raw IEEE-754 bits and never computes with them); `char` is the single code
point byte; `String`, `Vec<char>` and `Box<String>` are byte lists; the
`Wrapping<u32>` is transparent on the wire. -/
structure TestStruct where
  usize_1 : Nat
  isize_1 : Int
  u16_1 : Nat
  u64_1 : Nat
  i8_1 : Int
  i16_1 : Int
  i32_1 : Int
  i64_1 : Int
  f32_1 : Nat
  f64_1 : Nat
  char_1 : Nat
  bool_1 : Bool
  string_1 : List Nat
  enum_1 : TestState
  option_1 : Option Nat
  vec_1 : List Nat
  box_1 : List Nat
  wrapping_1 : Nat
deriving DecidableEq

/-- The all-default starting value of the decoder. -/
def testStructInit : TestStruct :=
  ⟨0, 0, 0, 0, 0, 0, 0, 0, 0, 0, 0, false, [], .Zero, none, [], [], 0⟩

/-- Gate of `isize_1`: `start = "0.2.0", end = "0.4.0"`. -/
def isizeBounds : VersionBounds := ⟨mkV 0 2 0, some (mkV 0 4 0)⟩

/-- Gate of `i16_1`: `start = "0.2.0", end = "0.2.0"` (an empty gate). -/
def i16Bounds : VersionBounds := ⟨mkV 0 2 0, some (mkV 0 2 0)⟩

/-- Descriptor of the `i16_1` field (empty gate, no `default_fn`, so absence
synthesizes the type default 0). -/
def i16Field : FieldDesc TestStruct :=
  simpleField i16Bounds (rdP (readInt 2)) (wrP (encInt 2))
    (fun s => s.i16_1) (fun s x => { s with i16_1 := x }) (fun _ => 0)

/-- Descriptor of the `isize_1` field: gate [0.2.0, 0.4.0), `default_fn`
`default_isize` returning 12. -/
def isizeField : FieldDesc TestStruct :=
  simpleField isizeBounds (rdP (readInt 8)) (wrP (encInt 8))
    (fun s => s.isize_1) (fun s x => { s with isize_1 := x }) (fun _ => 12)

/-- Field descriptors of `TestStruct`, in declaration order, with the exact
version attributes and `default_fn` values of the test file. -/
def testStructFields : List (FieldDesc TestStruct) :=
  [ simpleField {} (rdP (readLE 8)) (wrP (encLE 8))
      (fun s => s.usize_1) (fun s x => { s with usize_1 := x }) (fun _ => 0),
    isizeField,
    simpleField {} (rdP (readLE 2)) (wrP (encLE 2))
      (fun s => s.u16_1) (fun s x => { s with u16_1 := x }) (fun _ => 0),
    simpleField ⟨mkV 0 0 0, some (mkV 0 3 0)⟩ (rdP (readLE 8)) (wrP (encLE 8))
      (fun s => s.u64_1) (fun s x => { s with u64_1 := x }) (fun _ => 0x0D),
    simpleField {} (rdP (readInt 1)) (wrP (encInt 1))
      (fun s => s.i8_1) (fun s x => { s with i8_1 := x }) (fun _ => 0),
    i16Field,
    simpleField {} (rdP (readInt 4)) (wrP (encInt 4))
      (fun s => s.i32_1) (fun s x => { s with i32_1 := x }) (fun _ => 0),
    simpleField ⟨mkV 0 2 0, some (mkV 0 3 0)⟩ (rdP (readInt 8)) (wrP (encInt 8))
      (fun s => s.i64_1) (fun s x => { s with i64_1 := x }) (fun _ => 0x0E),
    simpleField {} (rdP (readLE 4)) (wrP (encLE 4))
      (fun s => s.f32_1) (fun s x => { s with f32_1 := x }) (fun _ => 0),
    simpleField {} (rdP (readLE 8)) (wrP (encLE 8))
      (fun s => s.f64_1) (fun s x => { s with f64_1 := x }) (fun _ => 0),
    simpleField {} (rdP readByte) (wrP (fun b => [b]))
      (fun s => s.char_1) (fun s x => { s with char_1 := x }) (fun _ => 0),
    simpleField ⟨mkV 0 2 0, none⟩ (rdP readBool) (wrP encBool)
      (fun s => s.bool_1) (fun s x => { s with bool_1 := x }) (fun _ => false),
    simpleField {} (rdP (readSeq readByte)) (wrP (encSeq (fun b => [b])))
      (fun s => s.string_1) (fun s x => { s with string_1 := x }) (fun _ => []),
    simpleField {} decodeTestState encodeTestState
      (fun s => s.enum_1) (fun s x => { s with enum_1 := x }) (fun _ => .Zero),
    simpleField {} (rdP (readOpt readByte)) (wrP (encOpt (fun b => [b])))
      (fun s => s.option_1) (fun s x => { s with option_1 := x }) (fun _ => none),
    simpleField ⟨mkV 0 3 0, some (mkV 0 4 0)⟩ (rdP (readSeq readByte))
      (wrP (encSeq (fun b => [b])))
      (fun s => s.vec_1) (fun s x => { s with vec_1 := x })
      (fun _ => List.replicate 8 0x76),
    simpleField {} (rdP (readSeq readByte)) (wrP (encSeq (fun b => [b])))
      (fun s => s.box_1) (fun s x => { s with box_1 := x }) (fun _ => []),
    simpleField ⟨mkV 0 3 0, none⟩ (rdP (readLE 4)) (wrP (encLE 4))
      (fun s => s.wrapping_1) (fun s x => { s with wrapping_1 := x }) (fun _ => 0) ]

/-- Serialize a `TestStruct` at the resolved version. -/
def serializeTestStruct (vv : Version) (s : TestStruct) : VResult (List Nat) :=
  serializeStruct testStructFields vv s

/-- Deserialize a `TestStruct` at the resolved source version. -/
def deserializeTestStruct (vv : Version) (bs : List Nat) :
    VResult (TestStruct × List Nat) :=
  deserializeStruct testStructFields vv testStructInit bs

/-- UTF-8 bytes of "some_string". -/
def strSomeString : List Nat :=
  [0x73, 0x6F, 0x6D, 0x65, 0x5F, 0x73, 0x74, 0x72, 0x69, 0x6E, 0x67]

/-- UTF-8 bytes of "some_other_string". -/
def strSomeOtherString : List Nat :=
  [0x73, 0x6F, 0x6D, 0x65, 0x5F, 0x6F, 0x74, 0x68, 0x65, 0x72, 0x5F,
   0x73, 0x74, 0x72, 0x69, 0x6E, 0x67]

/-- The hardcoded v1 snapshot of `test_hardcoded_struct_deserialization`. -/
def v1Snapshot : List Nat :=
  [0x01, 0x00, 0x00, 0x00, 0x00, 0x00, 0x00, 0x00, 0x04, 0x00,
   0xCD, 0xAB, 0x00, 0x00, 0x00, 0x00, 0x00, 0x00, 0xFF, 0x20, 0x00, 0x00, 0x00,
   0x00, 0x00, 0x00, 0x3F, 0x00, 0x00, 0x00, 0x00, 0x00, 0x20, 0x50, 0x40, 0x61,
   0x0b, 0x00, 0x00, 0x00, 0x00, 0x00, 0x00, 0x00] ++
  strSomeString ++
  [0x01, 0x00, 0x00, 0x00, 0x02, 0x00, 0x00, 0x00,
   0x01, 0x81,
   0x11, 0x00, 0x00, 0x00, 0x00, 0x00, 0x00, 0x00] ++
  strSomeOtherString

/-- The hardcoded v2 snapshot. -/
def v2Snapshot : List Nat :=
  [0x01, 0x00, 0x00, 0x00, 0x00, 0x00, 0x00, 0x00,
   0x02, 0x00, 0x00, 0x00, 0x00, 0x00, 0x00, 0x00,
   0x04, 0x00,
   0xCD, 0xAB, 0x00, 0x00, 0x00, 0x00, 0x00, 0x00, 0xFF, 0x20, 0x00, 0x00, 0x00,
   0xFF, 0xFF, 0x00, 0x00, 0x00, 0x00, 0x00, 0x00,
   0x00, 0x00, 0x00, 0x3F, 0x00, 0x00, 0x00, 0x00, 0x00, 0x20, 0x50, 0x40, 0x61,
   0x01,
   0x0B, 0x00, 0x00, 0x00, 0x00, 0x00, 0x00, 0x00] ++
  strSomeString ++
  [0x02, 0x00, 0x00, 0x00, 0x0E, 0x00, 0x00, 0x00, 0x00, 0x00, 0x00, 0x00,
   0x01, 0x81,
   0x11, 0x00, 0x00, 0x00, 0x00, 0x00, 0x00, 0x00] ++
  strSomeOtherString

/-- The hardcoded v3 snapshot. -/
def v3Snapshot : List Nat :=
  [0x01, 0x00, 0x00, 0x00, 0x00, 0x00, 0x00, 0x00,
   0x02, 0x00, 0x00, 0x00, 0x00, 0x00, 0x00, 0x00,
   0x04, 0x00,
   0xFF, 0x20, 0x00, 0x00, 0x00,
   0x00, 0x00, 0x00, 0x3F, 0x00, 0x00, 0x00, 0x00, 0x00, 0x20, 0x50, 0x40, 0x61,
   0x01,
   0x0b, 0x00, 0x00, 0x00, 0x00, 0x00, 0x00, 0x00] ++
  strSomeString ++
  [0x02, 0x00, 0x00, 0x00, 0x0E, 0x00, 0x00, 0x00, 0x00, 0x00, 0x00, 0x00,
   0x01, 0x81,
   0x04, 0x00, 0x00, 0x00, 0x00, 0x00, 0x00, 0x00, 0x61, 0x61, 0x61, 0x61,
   0x11, 0x00, 0x00, 0x00, 0x00, 0x00, 0x00, 0x00] ++
  strSomeOtherString ++
  [0xFF, 0x00, 0x00, 0x00]

/-- The hardcoded v4 snapshot. -/
def v4Snapshot : List Nat :=
  [0x01, 0x00, 0x00, 0x00, 0x00, 0x00, 0x00, 0x00,
   0x04, 0x00,
   0xFF, 0x20, 0x00, 0x00, 0x00,
   0x00, 0x00, 0x00, 0x3F, 0x00, 0x00, 0x00, 0x00, 0x00, 0x20, 0x50, 0x40, 0x61,
   0x01,
   0x0b, 0x00, 0x00, 0x00, 0x00, 0x00, 0x00, 0x00] ++
  strSomeString ++
  [0x02, 0x00, 0x00, 0x00, 0x0e, 0x00, 0x00, 0x00, 0x00, 0x00, 0x00, 0x00,
   0x01, 0x81,
   0x11, 0x00, 0x00, 0x00, 0x00, 0x00, 0x00, 0x00] ++
  strSomeOtherString ++
  [0xFF, 0x00, 0x00, 0x00]

/-- Expected in-memory value after restoring the v1 snapshot at 0.1.0. -/
def expectedStateV1 : TestStruct :=
  { usize_1 := 1, isize_1 := 12, u16_1 := 4, u64_1 := 0xABCD, i8_1 := -1,
    i16_1 := 0, i32_1 := 32, i64_1 := 0x0E, f32_1 := 0x3F000000,
    f64_1 := 0x4050200000000000, char_1 := 0x61, bool_1 := false,
    string_1 := strSomeString, enum_1 := .One 2, option_1 := some 129,
    vec_1 := List.replicate 8 0x76, box_1 := strSomeOtherString,
    wrapping_1 := 0 }

/-- Expected in-memory value after restoring the v2 snapshot at 0.2.0. -/
def expectedStateV2 : TestStruct :=
  { expectedStateV1 with
    isize_1 := 2, i64_1 := 0xFFFF, bool_1 := true, enum_1 := .Two 14 }

/-- Expected in-memory value after restoring the v3 snapshot at 0.3.0. -/
def expectedStateV3 : TestStruct :=
  { expectedStateV2 with
    u64_1 := 0x0D, i64_1 := 0x0E, vec_1 := List.replicate 4 0x61,
    wrapping_1 := 255 }

/-- Expected in-memory value after restoring the v4 snapshot at 0.4.0. -/
def expectedStateV4 : TestStruct :=
  { expectedStateV3 with isize_1 := 12, vec_1 := List.replicate 8 0x76 }

/-! ## The `State` enum (test_versionize_enum) -/

/-- In-memory shape of the `State` enum of the test file.  `Two` carries a
`Vec<u8>`, `Three` a `String` (both byte lists), `Four` an `Option<u64>`. -/
inductive State where
  | Zero (x : Nat)
  | One (b : Bool)
  | Two (l : List Nat)
  | Three (s : List Nat)
  | Four (o : Option Nat)
deriving DecidableEq

/-- Declaration index of each `State` variant in the full variant list. -/
def stateIndex : State → Nat
  | .Zero _ => 0
  | .One _ => 1
  | .Two _ => 2
  | .Three _ => 3
  | .Four _ => 4

/-- Version gate of each `State` variant, from the `#[version]` attributes:
`Two` and `Three` exist in [0.0.2, 0.1.0), `Four` in [0.0.3, 0.1.0). -/
def stateBounds : State → VersionBounds
  | .Zero _ => {}
  | .One _ => {}
  | .Two _ => ⟨mkV 0 0 2, some (mkV 0 1 0)⟩
  | .Three _ => ⟨mkV 0 0 2, some (mkV 0 1 0)⟩
  | .Four _ => ⟨mkV 0 0 3, some (mkV 0 1 0)⟩

/-- Positional payload encoding of a `State` variant. -/
def statePayload : State → List Nat
  | .Zero x => encLE 4 x
  | .One b => encBool b
  | .Two l => encSeq (fun b => [b]) l
  | .Three s => encSeq (fun b => [b]) s
  | .Four o => encOpt (encLE 8) o

/-- The `default_fn` of each gated `State` variant (`default_state_two`,
`default_state_three`, `default_state_four`), dispatching on the patch
number exactly as the source does; variants without a declared `default_fn`
have no fallback. -/
def stateDefault : State → Version → VResult State
  | .Two _, vv =>
    if vv.patch = 1 then .ok (.One true)
    else if 2 ≤ vv.patch ∧ vv.patch ≤ 9 then .ok (.Zero 2)
    else .error (.Serialize ("Unknown target version: " ++ toString vv.patch))
  | .Three _, vv =>
    if vv.patch = 1 then .ok (.One false)
    else if 2 ≤ vv.patch ∧ vv.patch ≤ 9 then .ok (.Zero 3)
    else .error (.Serialize ("Unknown target version: " ++ toString vv.patch))
  | .Four _, vv =>
    if 1 ≤ vv.patch ∧ vv.patch ≤ 9 then .ok (.Zero 4)
    else .error (.Serialize ("Unknown target version: " ++ toString vv.patch))
  | s, _ => .ok s

/-- Enum encode with a recursion budget on the fallback chain: a variant
present at the target version is emitted as its 4-byte full-list index
followed by its payload; an absent variant is first rewritten through its
`default_fn` (the engine never emits a discriminant invalid for the target
version). -/
def serializeStateAux : Nat → Version → State → VResult (List Nat)
  | 0, _, _ => .error (.Semantic "variant fallback recursion limit")
  | fuel + 1, vv, s =>
    if presentAt (stateBounds s) vv then
      .ok (encLE 4 (stateIndex s) ++ statePayload s)
    else
      match stateDefault s vv with
      | .ok s' => serializeStateAux fuel vv s'
      | .error e => .error e

/-- Enum encode entry point (the fallback chain of `State` is at most one
step deep, the budget of five never runs out). -/
def serializeState (vv : Version) (s : State) : VResult (List Nat) :=
  serializeStateAux 5 vv s

/-- Read the payload of the `State` variant designated by a discriminant. -/
def decodeStatePayload (disc : Nat) (bs : List Nat) : VResult (State × List Nat) :=
  match disc with
  | 0 =>
    match readLE 4 bs with
    | .ok (x, rest) => .ok (.Zero x, rest)
    | .error e => .error e
  | 1 =>
    match readBool bs with
    | .ok (b, rest) => .ok (.One b, rest)
    | .error e => .error e
  | 2 =>
    match readSeq readByte bs with
    | .ok (l, rest) => .ok (.Two l, rest)
    | .error e => .error e
  | 3 =>
    match readSeq readByte bs with
    | .ok (l, rest) => .ok (.Three l, rest)
    | .error e => .error e
  | 4 =>
    match readOpt (readLE 8) bs with
    | .ok (o, rest) => .ok (.Four o, rest)
    | .error e => .error e
  | _ => .error (.Deserialize "invalid State variant")

/-- Modelled from the spec: enum decode reads the discriminant and the
designated variant's payload, evaluates the variant's gate against the
source version, and, when the gate is false, invokes the variant's
default-synthesis function on the decoded value and the source version to
obtain the replacement variant (or fail). -/
def deserializeState (vv : Version) (bs : List Nat) : VResult (State × List Nat) :=
  match readLE 4 bs with
  | .ok (disc, rest) =>
    match decodeStatePayload disc rest with
    | .ok (s, rest2) =>
      if presentAt (stateBounds s) vv then .ok (s, rest2)
      else
        match stateDefault s vv with
        | .ok s' => .ok (s', rest2)
        | .error e => .error e
    | .error e => .error e
  | .error e => .error e

/-! ## `DeviceStatus`, `OperationSupported` and the `Device` structs -/

/-- In-memory shape of the `DeviceStatus` enum. -/
inductive DeviceStatus where
  | Inactive
  | Active
  | IsActivating (x : Nat)
deriving DecidableEq

/-- Declaration index of each `DeviceStatus` variant. -/
def deviceStatusIndex : DeviceStatus → Nat
  | .Inactive => 0
  | .Active => 1
  | .IsActivating _ => 2

/-- Version gate of each `DeviceStatus` variant: only `IsActivating` is
gated, to [0.0.1, 0.0.999). -/
def deviceStatusBounds : DeviceStatus → VersionBounds
  | .Inactive => {}
  | .Active => {}
  | .IsActivating _ => ⟨mkV 0 0 1, some (mkV 0 0 999)⟩

/-- Payload of a `DeviceStatus` variant (the unit variants have none). -/
def deviceStatusPayload : DeviceStatus → List Nat
  | .Inactive => []
  | .Active => []
  | .IsActivating x => encLE 4 x

/-- The `default_is_activating` fallback of `DeviceStatus`. -/
def deviceStatusDefault : DeviceStatus → Version → VResult DeviceStatus
  | .IsActivating _, vv =>
    if 1 ≤ vv.patch ∧ vv.patch ≤ 9 then .ok .Inactive
    else .error (.Serialize ("Unknown target version: " ++ toString vv.patch))
  | s, _ => .ok s

/-- `DeviceStatus` encode (same shape as the `State` encoder). -/
def serializeDeviceStatusAux : Nat → Version → DeviceStatus → VResult (List Nat)
  | 0, _, _ => .error (.Semantic "variant fallback recursion limit")
  | fuel + 1, vv, s =>
    if presentAt (deviceStatusBounds s) vv then
      .ok (encLE 4 (deviceStatusIndex s) ++ deviceStatusPayload s)
    else
      match deviceStatusDefault s vv with
      | .ok s' => serializeDeviceStatusAux fuel vv s'
      | .error e => .error e

/-- `DeviceStatus` encode entry point. -/
def serializeDeviceStatus (vv : Version) (s : DeviceStatus) : VResult (List Nat) :=
  serializeDeviceStatusAux 5 vv s

/-- `DeviceStatus` decode. -/
def deserializeDeviceStatus (vv : Version) (bs : List Nat) :
    VResult (DeviceStatus × List Nat) :=
  match readLE 4 bs with
  | .ok (0, rest) => .ok (.Inactive, rest)
  | .ok (1, rest) => .ok (.Active, rest)
  | .ok (2, rest) =>
    match readLE 4 rest with
    | .ok (x, rest2) =>
      if presentAt (deviceStatusBounds (.IsActivating x)) vv then
        .ok (.IsActivating x, rest2)
      else
        match deviceStatusDefault (.IsActivating x) vv with
        | .ok s' => .ok (s', rest2)
        | .error e => .error e
    | .error e => .error e
  | .ok _ => .error (.Deserialize "invalid DeviceStatus variant")
  | .error e => .error e

/-- In-memory shape of the `OperationSupported` enum (`Update` carries a
`String`). -/
inductive OperationSupported where
  | Add
  | Remove
  | RemoveAndAdd (b : Bool)
  | Update (s : List Nat)
deriving DecidableEq

/-- Declaration index of each `OperationSupported` variant. -/
def opIndex : OperationSupported → Nat
  | .Add => 0
  | .Remove => 1
  | .RemoveAndAdd _ => 2
  | .Update _ => 3

/-- Version gate: only `Update` is gated, to [0.1.3, 0.1.5). -/
def opBounds : OperationSupported → VersionBounds
  | .Update _ => ⟨mkV 0 1 3, some (mkV 0 1 5)⟩
  | _ => {}

/-- Payload encoding of an `OperationSupported` variant. -/
def opPayload : OperationSupported → List Nat
  | .Add => []
  | .Remove => []
  | .RemoveAndAdd b => encBool b
  | .Update s => encSeq (fun b => [b]) s

/-- The `default_update` fallback of `OperationSupported`. -/
def opDefault : OperationSupported → Version → VResult OperationSupported
  | .Update _, vv =>
    if 1 ≤ vv.patch ∧ vv.patch ≤ 9 then .ok (.RemoveAndAdd true)
    else .error (.Serialize ("Unknown target version: " ++ toString vv.patch))
  | s, _ => .ok s

/-- `OperationSupported` encode. -/
def serializeOpAux : Nat → Version → OperationSupported → VResult (List Nat)
  | 0, _, _ => .error (.Semantic "variant fallback recursion limit")
  | fuel + 1, vv, s =>
    if presentAt (opBounds s) vv then
      .ok (encLE 4 (opIndex s) ++ opPayload s)
    else
      match opDefault s vv with
      | .ok s' => serializeOpAux fuel vv s'
      | .error e => .error e

/-- `OperationSupported` encode entry point. -/
def serializeOp (vv : Version) (s : OperationSupported) : VResult (List Nat) :=
  serializeOpAux 5 vv s

/-- `OperationSupported` decode. -/
def deserializeOp (vv : Version) (bs : List Nat) :
    VResult (OperationSupported × List Nat) :=
  match readLE 4 bs with
  | .ok (0, rest) => .ok (.Add, rest)
  | .ok (1, rest) => .ok (.Remove, rest)
  | .ok (2, rest) =>
    match readBool rest with
    | .ok (b, rest2) => .ok (.RemoveAndAdd b, rest2)
    | .error e => .error e
  | .ok (3, rest) =>
    match readSeq readByte rest with
    | .ok (s, rest2) =>
      if presentAt (opBounds (.Update s)) vv then .ok (.Update s, rest2)
      else
        match opDefault (.Update s) vv with
        | .ok s' => .ok (s', rest2)
        | .error e => .error e
    | .error e => .error e
  | .ok _ => .error (.Deserialize "invalid OperationSupported variant")
  | .error e => .error e

/-- Fallible element-wise concatenation (sequences of values whose own
encoders may rewrite variants and fail). -/
def encEachF {α : Type} (enc : α → VResult (List Nat)) : List α → VResult (List Nat)
  | [] => .ok []
  | x :: xs =>
    match enc x with
    | .ok b =>
      match encEachF enc xs with
      | .ok r => .ok (b ++ r)
      | .error e => .error e
    | .error e => .error e

/-- Fallible dynamic-sequence encoding: 8-byte count then the elements. -/
def encSeqF {α : Type} (enc : α → VResult (List Nat)) (l : List α) :
    VResult (List Nat) :=
  match encEachF enc l with
  | .ok body => .ok (encLE 8 l.length ++ body)
  | .error e => .error e

/-- UTF-8 bytes of "block". -/
def strBlock : List Nat := [0x62, 0x6C, 0x6F, 0x63, 0x6B]

/-- UTF-8 bytes of "active". -/
def strActive : List Nat := [0x61, 0x63, 0x74, 0x69, 0x76, 0x65]

/-- UTF-8 bytes of "inactive". -/
def strInactive : List Nat := [0x69, 0x6E, 0x61, 0x63, 0x74, 0x69, 0x76, 0x65]

/-- UTF-8 bytes of "extra_features". -/
def strExtraFeatures : List Nat :=
  [0x65, 0x78, 0x74, 0x72, 0x61, 0x5F, 0x66, 0x65, 0x61, 0x74, 0x75, 0x72,
   0x65, 0x73]

/-- In-memory shape of `DeviceV1` (the version-1 layout used only for
producing old-format wire bytes). -/
structure DeviceV1St where
  name : List Nat
  id : Nat
  some_params : List (List Nat)
  status : DeviceStatus
  queues : List Nat
  features : Nat
deriving DecidableEq

/-- The `ser_v1` pre-encode hook of `DeviceV1`, declared on the ungated
`name` field: sets feature bits 0 and 31, activates the device and rewrites
`some_params` (push "active", drop "inactive", push "extra_features"). -/
def serV1Hook (s : DeviceV1St) : DeviceV1St :=
  { s with
    features := (s.features ||| 1) ||| 2 ^ 31,
    status := .Active,
    some_params :=
      ((s.some_params ++ [strActive]).filter (fun x => x ≠ strInactive)) ++
        [strExtraFeatures] }

/-- Field descriptors of `DeviceV1`, in declaration order; every field is
ungated and `name` carries the `ser_v1` hook. -/
def deviceV1Fields : List (FieldDesc DeviceV1St) :=
  [ { simpleField {} (rdP (readSeq readByte)) (wrP (encSeq (fun b => [b])))
        (fun s => s.name) (fun s x => { s with name := x }) (fun _ => []) with
      serFn := fun _ s => .ok (serV1Hook s) },
    simpleField {} (rdP (readLE 4)) (wrP (encLE 4))
      (fun s => s.id) (fun s x => { s with id := x }) (fun _ => 0),
    simpleField {} (rdP (readSeq (readSeq readByte)))
      (wrP (encSeq (encSeq (fun b => [b]))))
      (fun s => s.some_params) (fun s x => { s with some_params := x }) (fun _ => []),
    simpleField {} deserializeDeviceStatus (fun vv x => serializeDeviceStatus vv x)
      (fun s => s.status) (fun s x => { s with status := x }) (fun _ => .Inactive),
    simpleField {} (rdP (readSeq readByte)) (wrP (encSeq (fun b => [b])))
      (fun s => s.queues) (fun s x => { s with queues := x }) (fun _ => []),
    simpleField {} (rdP (readLE 4)) (wrP (encLE 4))
      (fun s => s.features) (fun s x => { s with features := x }) (fun _ => 0) ]

/-- Serialize a `DeviceV1`. -/
def serializeDeviceV1 (vv : Version) (s : DeviceV1St) : VResult (List Nat) :=
  serializeStruct deviceV1Fields vv s

/-- In-memory shape of the current `Device` struct. -/
structure DeviceSt where
  name : List Nat
  id : Nat
  is_activated : Bool
  some_params : List (List Nat)
  operations : List OperationSupported
  status : DeviceStatus
  no_queues_limit : Nat
  queues : List Nat
  features : Nat
  extra_features : Nat
deriving DecidableEq

/-- The all-default starting value of the `Device` decoder. -/
def deviceInit : DeviceSt := ⟨[], 0, false, [], [], .Inactive, 0, [], 0, 0⟩

/-- `Device::ser_ops`: sets feature bit 0 when encoding for a version before
0.1.3. -/
def deviceSerOps (vv : Version) (s : DeviceSt) : DeviceSt :=
  if Version.lt vv (mkV 0 1 3) then { s with features := s.features ||| 1 } else s

/-- `Device::ser_queues_limit`: rejects more than two queues when encoding
for a version at most 0.1.3. -/
def deviceSerQueuesLimit (vv : Version) (s : DeviceSt) : VResult DeviceSt :=
  if Version.le vv (mkV 0 1 3) ∧ 2 < s.queues.length then
    .error (.Semantic "Too many queues.")
  else .ok s

/-- `Device::ser_extra`: rejects a queue count above `no_queues_limit`. -/
def deviceSerExtra (s : DeviceSt) : VResult DeviceSt :=
  if s.no_queues_limit < s.queues.length then
    .error (.Semantic "Too many queues.")
  else .ok s

/-- `Device::de_extra`: restores feature bit 31 for sources before 0.1.3 and
rejects snapshots of exactly 0.1.3 whose queue count reaches the limit. -/
def deviceDeExtra (vv : Version) (s : DeviceSt) : VResult DeviceSt :=
  if Version.lt vv (mkV 0 1 3) then
    .ok { s with features := s.features ||| 2 ^ 31 }
  else if vv = mkV 0 1 3 ∧ s.no_queues_limit ≤ s.queues.length then
    .error (.Semantic "Too many queues.")
  else .ok s

/-- Field descriptors of `Device`, in declaration order, with the version
attributes, `default_fn`s and hooks of the source. -/
def deviceFields : List (FieldDesc DeviceSt) :=
  [ simpleField {} (rdP (readSeq readByte)) (wrP (encSeq (fun b => [b])))
      (fun s => s.name) (fun s x => { s with name := x }) (fun _ => []),
    simpleField {} (rdP (readLE 4)) (wrP (encLE 4))
      (fun s => s.id) (fun s x => { s with id := x }) (fun _ => 0),
    { simpleField ⟨mkV 0 1 2, none⟩ (rdP readBool) (wrP encBool)
        (fun s => s.is_activated) (fun s x => { s with is_activated := x })
        (fun _ => false) with
      serFn := fun _ s => .ok s },
    simpleField {} (rdP (readSeq (readSeq readByte)))
      (wrP (encSeq (encSeq (fun b => [b]))))
      (fun s => s.some_params) (fun s x => { s with some_params := x }) (fun _ => []),
    { simpleField ⟨mkV 0 1 2, none⟩
        (fun vv bs => readSeq (deserializeOp vv) bs)
        (fun vv l => encSeqF (serializeOp vv) l)
        (fun s => s.operations) (fun s x => { s with operations := x })
        (fun _ => [.Add, .Remove]) with
      serFn := fun vv s => .ok (deviceSerOps vv s),
      deFn := fun _ s => .ok s },
    simpleField {} deserializeDeviceStatus (fun vv x => serializeDeviceStatus vv x)
      (fun s => s.status) (fun s x => { s with status := x }) (fun _ => .Inactive),
    { simpleField ⟨mkV 0 1 2, none⟩ (rdP (readLE 8)) (wrP (encLE 8))
        (fun s => s.no_queues_limit) (fun s x => { s with no_queues_limit := x })
        (fun _ => 2) with
      serFn := fun vv s => deviceSerQueuesLimit vv s },
    simpleField {} (rdP (readSeq readByte)) (wrP (encSeq (fun b => [b])))
      (fun s => s.queues) (fun s x => { s with queues := x }) (fun _ => []),
    simpleField {} (rdP (readLE 4)) (wrP (encLE 4))
      (fun s => s.features) (fun s x => { s with features := x }) (fun _ => 0),
    { simpleField ⟨mkV 0 1 3, none⟩ (rdP (readLE 8)) (wrP (encLE 8))
        (fun s => s.extra_features) (fun s x => { s with extra_features := x })
        (fun _ => 0) with
      serFn := fun _ s => deviceSerExtra s,
      deFn := fun vv s => deviceDeExtra vv s } ]

/-- Serialize a `Device`. -/
def serializeDevice (vv : Version) (s : DeviceSt) : VResult (List Nat) :=
  serializeStruct deviceFields vv s

/-- Deserialize a `Device`. -/
def deserializeDevice (vv : Version) (bs : List Nat) : VResult (DeviceSt × List Nat) :=
  deserializeStruct deviceFields vv deviceInit bs

/-- The `DeviceV1` value serialized by `test_versionize_struct_with_enums`. -/
def deviceV1State : DeviceV1St :=
  { name := strBlock, id := 1, some_params := [strInactive],
    status := .Inactive, queues := [1, 2], features := 6 }

/-- The `Device` value the test expects after restoring the v1 wire at
0.1.1: hook mutations are on the wire, absent fields took their synthesized
defaults, and `de_extra` re-asserted feature bit 31. -/
def expectedDeviceV1Restore : DeviceSt :=
  { name := strBlock, id := 1, is_activated := false,
    some_params := [strActive, strExtraFeatures],
    operations := [.Add, .Remove], status := .Active, no_queues_limit := 2,
    queues := [1, 2], features := 0x80000007, extra_features := 0 }

/-- A `Device` whose queue count (2) passes `ser_queues_limit` but exceeds
`no_queues_limit` (1), so only `ser_extra` can reject it. -/
def deviceOverLimit : DeviceSt :=
  { name := strBlock, id := 1, is_activated := true,
    some_params := [strInactive], operations := [.Add], status := .Inactive,
    no_queues_limit := 1, queues := [1, 2], features := 6, extra_features := 0 }

/-- The `state3` value of the test with four queues (the semantic-error
scenario). -/
def deviceFourQueues : DeviceSt :=
  { name := strBlock, id := 1, is_activated := true,
    some_params := [strInactive],
    operations := [.Add, .Update strSomeString], status := .Inactive,
    no_queues_limit := 3, queues := [1, 2, 3, 4], features := 6,
    extra_features := 0 }

/-! ## The FAM message family (FamStructWrapper tests) -/

/-- Header record shared by the `MessageV1`/`Message`/`Message2` FAM structs
(the trailing `entries` marker field reads and writes nothing and is elided;
`Wrapping<bool>` is transparent on the wire). -/
structure MsgHeader where
  len : Nat
  padding : Nat
  value : Nat
  extra_value : Nat
  status : Bool
deriving DecidableEq

/-- All-default header used as the decoder's starting value. -/
def msgHeaderInit : MsgHeader := ⟨0, 0, 0, 0, false⟩

/-- Field descriptors of the `MessageV1` header: `len`, `padding`, `value`,
all ungated (`MessageV1` predates `extra_value` and `status`). -/
def messageV1HeaderFields : List (FieldDesc MsgHeader) :=
  [ simpleField {} (rdP (readLE 4)) (wrP (encLE 4))
      (fun s => s.len) (fun s x => { s with len := x }) (fun _ => 0),
    simpleField {} (rdP (readLE 4)) (wrP (encLE 4))
      (fun s => s.padding) (fun s x => { s with padding := x }) (fun _ => 0),
    simpleField {} (rdP (readLE 4)) (wrP (encLE 4))
      (fun s => s.value) (fun s x => { s with value := x }) (fun _ => 0) ]

/-- Field descriptors of the current `Message`/`Message2` header, with the
version attributes and `default_fn`s of the source (`padding` ends at 0.1.4
with no `default_fn`, `extra_value` starts at 0.1.2 defaulting to 4,
`status` lives in [0.1.3, 0.1.4) defaulting to `Wrapping(false)`). -/
def messageHeaderFields : List (FieldDesc MsgHeader) :=
  [ simpleField {} (rdP (readLE 4)) (wrP (encLE 4))
      (fun s => s.len) (fun s x => { s with len := x }) (fun _ => 0),
    simpleField ⟨mkV 0 0 0, some (mkV 0 1 4)⟩ (rdP (readLE 4)) (wrP (encLE 4))
      (fun s => s.padding) (fun s x => { s with padding := x }) (fun _ => 0),
    simpleField {} (rdP (readLE 4)) (wrP (encLE 4))
      (fun s => s.value) (fun s x => { s with value := x }) (fun _ => 0),
    simpleField ⟨mkV 0 1 2, none⟩ (rdP (readLE 2)) (wrP (encLE 2))
      (fun s => s.extra_value) (fun s x => { s with extra_value := x }) (fun _ => 4),
    simpleField ⟨mkV 0 1 3, some (mkV 0 1 4)⟩ (rdP readBool) (wrP encBool)
      (fun s => s.status) (fun s x => { s with status := x }) (fun _ => false) ]

/-- A FamStructWrapper value: the header plus the trailing element buffer
(u32 entries).  The wrapper keeps `hdr.len` equal to the element count by
construction (`push` updates both). -/
structure FamMsg where
  hdr : MsgHeader
  entries : List Nat
deriving DecidableEq

/-- Modelled from the spec: the capacity error raised when a decoded FAM
would exceed the construction-time maximum (`SizeLimitExceeded`). -/
def famCapacityError : VersionizeError := .Deserialize "SizeLimitExceeded"

/-- The declared/actual mismatch error, with the exact message of the test
file. -/
def famMismatchError (claimed actual : Nat) : VersionizeError :=
  .Deserialize ("Mismatch between length of FAM specified in FamStruct header ("
    ++ toString claimed ++ ") and actual size of FAM (" ++ toString actual ++ ")")

/-- Modelled from the spec: FamStructWrapper encode writes the header via
the struct engine, then the element buffer as a dynamic sequence. -/
def serializeFam (fields : List (FieldDesc MsgHeader)) (vv : Version)
    (f : FamMsg) : VResult (List Nat) :=
  match serializeStruct fields vv f.hdr with
  | .ok hb => .ok (hb ++ encSeq (encLE 4) f.entries)
  | .error e => .error e

/-- Modelled from the spec: FamStructWrapper decode reads the header, then
the elements; a disagreement between the header's claimed count and the
element count found in the source fails with the mismatch error naming both
numbers, and a claimed count beyond the maximum capacity fails with the
capacity error. -/
def deserializeFam (fields : List (FieldDesc MsgHeader)) (maxLen : Nat)
    (vv : Version) (bs : List Nat) : VResult (FamMsg × List Nat) :=
  match deserializeStruct fields vv msgHeaderInit bs with
  | .ok (hdr, r) =>
    match readSeq (readLE 4) r with
    | .ok (es, r2) =>
      if hdr.len ≠ es.length then .error (famMismatchError hdr.len es.length)
      else if maxLen < es.length then .error famCapacityError
      else .ok (⟨hdr, es⟩, r2)
    | .error e => .error e
  | .error e => .error e

/-- `MessageV1FamStructWrapper` codec (max capacity 100). -/
def serializeFamMsgV1 (vv : Version) (f : FamMsg) : VResult (List Nat) :=
  serializeFam messageV1HeaderFields vv f

/-- `MessageFamStructWrapper` decode (max capacity 100). -/
def deserializeFamMsg (vv : Version) (bs : List Nat) : VResult (FamMsg × List Nat) :=
  deserializeFam messageHeaderFields 100 vv bs

/-- `MessageFamStructWrapper` encode. -/
def serializeFamMsg (vv : Version) (f : FamMsg) : VResult (List Nat) :=
  serializeFam messageHeaderFields vv f

/-- `Message2FamStructWrapper` decode: identical layout, max capacity 1. -/
def deserializeFamMsg2 (vv : Version) (bs : List Nat) : VResult (FamMsg × List Nat) :=
  deserializeFam messageHeaderFields 1 vv bs

/-- The corrupted 256-byte buffer of
`test_deserialize_famstructwrapper_invalid_len`: an empty wrapper was
serialized into a zeroed buffer and `buffer[0]` was then set to 255. -/
def corruptFamBuffer : List Nat := 255 :: List.replicate 255 0

/-- `SomeStructV1`: one field holding a `MessageV1FamStructWrapper`, with a
pre-encode hook (`ser_u16`) that adds 2 to the wrapped header's `padding`. -/
structure SomeStructV1St where
  message : FamMsg
deriving DecidableEq

/-- Field descriptors of `SomeStructV1`. -/
def someStructV1Fields : List (FieldDesc SomeStructV1St) :=
  [ { simpleField {} (fun vv bs => deserializeFamMsg vv bs)
        (fun vv f => serializeFamMsgV1 vv f)
        (fun s => s.message) (fun s x => { s with message := x })
        (fun _ => ⟨msgHeaderInit, []⟩) with
      serFn := fun _ s =>
        .ok { s with message :=
          { s.message with hdr :=
            { s.message.hdr with padding := s.message.hdr.padding + 2 } } } } ]

/-- Serialize a `SomeStructV1`. -/
def serializeSomeStructV1 (vv : Version) (s : SomeStructV1St) : VResult (List Nat) :=
  serializeStruct someStructV1Fields vv s

/-- `SomeStruct`: a current `MessageFamStructWrapper` plus a `u16` added at
0.2.0 whose hook also bumps the wrapped `padding`. -/
structure SomeStructSt where
  message : FamMsg
  some_u16 : Nat
deriving DecidableEq

/-- Field descriptors of `SomeStruct`. -/
def someStructFields : List (FieldDesc SomeStructSt) :=
  [ simpleField {} (fun vv bs => deserializeFamMsg vv bs)
      (fun vv f => serializeFamMsg vv f)
      (fun s => s.message) (fun s x => { s with message := x })
      (fun _ => ⟨msgHeaderInit, []⟩),
    { simpleField ⟨mkV 0 2 0, none⟩ (rdP (readLE 2)) (wrP (encLE 2))
        (fun s => s.some_u16) (fun s x => { s with some_u16 := x }) (fun _ => 0) with
      serFn := fun _ s =>
        .ok { s with message :=
          { s.message with hdr :=
            { s.message.hdr with padding := s.message.hdr.padding + 2 } } } } ]

/-- Deserialize a `SomeStruct`. -/
def deserializeSomeStruct (vv : Version) (bs : List Nat) :
    VResult (SomeStructSt × List Nat) :=
  deserializeStruct someStructFields vv ⟨⟨msgHeaderInit, []⟩, 0⟩ bs

/-- `SomeStruct2`: same layout as `SomeStruct` but wrapping `Message2`
(maximum capacity 1), used for the negative capacity test. -/
def someStruct2Fields : List (FieldDesc SomeStructSt) :=
  [ simpleField {} (fun vv bs => deserializeFamMsg2 vv bs)
      (fun vv f => serializeFamMsg vv f)
      (fun s => s.message) (fun s x => { s with message := x })
      (fun _ => ⟨msgHeaderInit, []⟩),
    { simpleField ⟨mkV 0 2 0, none⟩ (rdP (readLE 2)) (wrP (encLE 2))
        (fun s => s.some_u16) (fun s x => { s with some_u16 := x }) (fun _ => 0) with
      serFn := fun _ s =>
        .ok { s with message :=
          { s.message with hdr :=
            { s.message.hdr with padding := s.message.hdr.padding + 2 } } } } ]

/-- Deserialize a `SomeStruct2`. -/
def deserializeSomeStruct2 (vv : Version) (bs : List Nat) :
    VResult (SomeStructSt × List Nat) :=
  deserializeStruct someStruct2Fields vv ⟨⟨msgHeaderInit, []⟩, 0⟩ bs

/-- The `SomeStructV1` value of `test_famstructwrapper_clone`: padding 8 and
two pushed entries (`push` kept `len` at 2). -/
def someV1State : SomeStructV1St :=
  ⟨⟨⟨2, 8, 0, 0, false⟩, [1, 2]⟩⟩

/-! ## `TestV3` and `Test` (test_versionize_struct) -/

/-- In-memory shape of the `S` helper struct (`f64` carried as raw bits,
`i64` as a signed integer). -/
structure SPair where
  a : Nat
  b : Int
deriving DecidableEq

/-- Wire form of `S`: the f64 bits then the i64. -/
def encS (p : SPair) : List Nat := encLE 8 p.a ++ encInt 8 p.b

/-- Read an `S`. -/
def readS (bs : List Nat) : VResult (SPair × List Nat) :=
  match readLE 8 bs with
  | .ok (a, r) =>
    match readInt 8 r with
    | .ok (b, r2) => .ok (⟨a, b⟩, r2)
    | .error e => .error e
  | .error e => .error e

/-- Shared in-memory shape of `TestV3` and `Test` (same fifteen fields in
the same declaration order; `vec_1` is a `Vec<u16>`, `option_1` an
`Option<String>`). -/
structure TestSt where
  usize_1 : Nat
  isize_1 : Int
  u8_1 : Nat
  vec_1 : List Nat
  wrapping_1 : Nat
  u64_1 : Nat
  bool_1 : Bool
  enum_1 : State
  i8_1 : Int
  i16_1 : Int
  i32_1 : Int
  box_1 : SPair
  f32_1 : Nat
  char_1 : Nat
  option_1 : Option (List Nat)
deriving DecidableEq

/-- All-default starting value of the `Test` decoder. -/
def testInit : TestSt :=
  ⟨0, 0, 0, [], 0, 0, false, .Zero 0, 0, 0, 0, ⟨0, 0⟩, 0, 0, none⟩

/-- UTF-8 bytes of "something". -/
def strSomething : List Nat :=
  [0x73, 0x6F, 0x6D, 0x65, 0x74, 0x68, 0x69, 0x6E, 0x67]

/-- UTF-8 bytes of "box_change". -/
def strBoxChange : List Nat :=
  [0x62, 0x6F, 0x78, 0x5F, 0x63, 0x68, 0x61, 0x6E, 0x67, 0x65]

/-- `TestV3::ser_isize`: rejects the encode when `i8_1` is -1. -/
def testV3SerIsize (s : TestSt) : VResult TestSt :=
  if s.i8_1 = -1 then
    .error (.Semantic "Unexpected value for `i8` field.")
  else .ok s

/-- `TestV3::ser_option`: adds 2 to `u8_1` (a field declared twelve places
earlier) and rejects the encode when the vector is full. -/
def testV3SerOption (s : TestSt) : VResult TestSt :=
  if s.vec_1.length = 10 then .error (.Semantic "Vec is full.")
  else .ok { s with u8_1 := s.u8_1 + 2 }

/-- Field descriptors of `TestV3`, in declaration order, with its version
attributes, `default_fn`s and `ser_fn` hooks. -/
def testV3Fields : List (FieldDesc TestSt) :=
  [ simpleField {} (rdP (readLE 8)) (wrP (encLE 8))
      (fun s => s.usize_1) (fun s x => { s with usize_1 := x }) (fun _ => 0),
    { simpleField ⟨mkV 0 0 2, some (mkV 0 0 3)⟩ (rdP (readInt 8)) (wrP (encInt 8))
        (fun s => s.isize_1) (fun s x => { s with isize_1 := x }) (fun _ => 0) with
      serFn := fun _ s => testV3SerIsize s },
    simpleField ⟨mkV 0 0 2, none⟩ (rdP readByte) (wrP (fun b => [b]))
      (fun s => s.u8_1) (fun s x => { s with u8_1 := x }) (fun _ => 0),
    simpleField {} (rdP (readSeq (readLE 2))) (wrP (encSeq (encLE 2)))
      (fun s => s.vec_1) (fun s x => { s with vec_1 := x }) (fun _ => []),
    simpleField ⟨mkV 0 0 3, none⟩ (rdP (readLE 4)) (wrP (encLE 4))
      (fun s => s.wrapping_1) (fun s x => { s with wrapping_1 := x }) (fun _ => 0),
    simpleField ⟨mkV 0 0 0, some (mkV 0 0 3)⟩ (rdP (readLE 8)) (wrP (encLE 8))
      (fun s => s.u64_1) (fun s x => { s with u64_1 := x }) (fun _ => 0),
    simpleField ⟨mkV 0 0 2, none⟩ (rdP readBool) (wrP encBool)
      (fun s => s.bool_1) (fun s x => { s with bool_1 := x }) (fun _ => false),
    simpleField {} deserializeState (fun vv x => serializeState vv x)
      (fun s => s.enum_1) (fun s x => { s with enum_1 := x }) (fun _ => .One false),
    simpleField {} (rdP (readInt 1)) (wrP (encInt 1))
      (fun s => s.i8_1) (fun s x => { s with i8_1 := x }) (fun _ => 0),
    simpleField {} (rdP (readInt 2)) (wrP (encInt 2))
      (fun s => s.i16_1) (fun s x => { s with i16_1 := x }) (fun _ => 0),
    simpleField ⟨mkV 0 0 3, none⟩ (rdP (readInt 4)) (wrP (encInt 4))
      (fun s => s.i32_1) (fun s x => { s with i32_1 := x }) (fun _ => 0),
    simpleField ⟨mkV 0 0 2, none⟩ (rdP readS) (wrP encS)
      (fun s => s.box_1) (fun s x => { s with box_1 := x })
      (fun _ => ⟨0x3FF8000000000000, 2⟩),
    simpleField ⟨mkV 0 0 2, some (mkV 0 0 3)⟩ (rdP (readLE 4)) (wrP (encLE 4))
      (fun s => s.f32_1) (fun s x => { s with f32_1 := x }) (fun _ => 0),
    simpleField {} (rdP readByte) (wrP (fun b => [b]))
      (fun s => s.char_1) (fun s x => { s with char_1 := x }) (fun _ => 0),
    { simpleField ⟨mkV 0 0 0, some (mkV 0 0 3)⟩
        (rdP (readOpt (readSeq readByte))) (wrP (encOpt (encSeq (fun b => [b]))))
        (fun s => s.option_1) (fun s x => { s with option_1 := x })
        (fun _ => none) with
      serFn := fun _ s => testV3SerOption s } ]

/-- Serialize a `TestV3`. -/
def serializeTestV3 (vv : Version) (s : TestSt) : VResult (List Nat) :=
  serializeStruct testV3Fields vv s

/-- `Test::ser_isize`: pushes an element and rejects `i8_1 = -1`. -/
def testSerIsize (s : TestSt) : VResult TestSt :=
  if s.i8_1 = -1 then
    .error (.Semantic "Unexpected value for `i8` field.")
  else .ok { s with vec_1 := s.vec_1 ++ [0x0304] }

/-- `Test::ser_u64`: for targets with patch at least 3, pops an element and
clears `bool_1` when `u8_1` is 4. -/
def testSerU64 (vv : Version) (s : TestSt) : TestSt :=
  if 3 ≤ vv.patch then
    let s' := { s with vec_1 := s.vec_1.dropLast }
    if s'.u8_1 = 4 then { s' with bool_1 := false } else s'
  else s

/-- `Test::ser_bool`: pads the vector for targets before patch 2. -/
def testSerBool (vv : Version) (s : TestSt) : TestSt :=
  if vv.patch < 2 then { s with vec_1 := s.vec_1 ++ [0x0506, 0x0708] } else s

/-- `Test::ser_option`: at patch 9 adds 2 to `u8_1` and rejects a full
vector. -/
def testSerOption (vv : Version) (s : TestSt) : VResult TestSt :=
  if vv.patch = 9 then
    if s.vec_1.length = 10 then .error (.Semantic "Vec is full.")
    else .ok { s with u8_1 := s.u8_1 + 2 }
  else .ok s

/-- `Test::de_isize`: adds 3 to `u8_1` for sources whose patch is not 2. -/
def testDeIsize (vv : Version) (s : TestSt) : TestSt :=
  if vv.patch ≠ 2 then { s with u8_1 := s.u8_1 + 3 } else s

/-- `Test::de_u64`: pushes an element for sources with patch at least 3. -/
def testDeU64 (vv : Version) (s : TestSt) : TestSt :=
  if 3 ≤ vv.patch then { s with vec_1 := s.vec_1 ++ [0x0101] } else s

/-- `Test::de_box`: for sources before patch 2 sets `option_1` and rejects
an empty vector. -/
def testDeBox (vv : Version) (s : TestSt) : VResult TestSt :=
  if vv.patch < 2 then
    if s.vec_1.isEmpty then .error (.Semantic "Vec len is too small.")
    else .ok { s with option_1 := some strBoxChange }
  else .ok s

/-- `Test::de_option`: for sources with patch at least 3 overwrites the
enum. -/
def testDeOption (vv : Version) (s : TestSt) : TestSt :=
  if 3 ≤ vv.patch then { s with enum_1 := .Two (List.replicate 4 1) } else s

/-- Field descriptors of the current `Test` struct, in declaration order,
with its version attributes, `default_fn`s and hooks. -/
def testFields : List (FieldDesc TestSt) :=
  [ simpleField {} (rdP (readLE 8)) (wrP (encLE 8))
      (fun s => s.usize_1) (fun s x => { s with usize_1 := x }) (fun _ => 0),
    { simpleField ⟨mkV 0 0 2, some (mkV 0 0 3)⟩ (rdP (readInt 8)) (wrP (encInt 8))
        (fun s => s.isize_1) (fun s x => { s with isize_1 := x }) (fun _ => 0) with
      serFn := fun _ s => testSerIsize s,
      deFn := fun vv s => .ok (testDeIsize vv s) },
    simpleField ⟨mkV 0 0 2, none⟩ (rdP readByte) (wrP (fun b => [b]))
      (fun s => s.u8_1) (fun s x => { s with u8_1 := x }) (fun _ => 0),
    simpleField ⟨mkV 0 0 0, some (mkV 0 0 4)⟩ (rdP (readSeq (readLE 2)))
      (wrP (encSeq (encLE 2)))
      (fun s => s.vec_1) (fun s x => { s with vec_1 := x })
      (fun _ => List.replicate 4 0x0102),
    simpleField ⟨mkV 0 0 3, none⟩ (rdP (readLE 4)) (wrP (encLE 4))
      (fun s => s.wrapping_1) (fun s x => { s with wrapping_1 := x }) (fun _ => 0),
    { simpleField ⟨mkV 0 0 0, some (mkV 0 0 3)⟩ (rdP (readLE 8)) (wrP (encLE 8))
        (fun s => s.u64_1) (fun s x => { s with u64_1 := x })
        (fun _ => 0x0102010201020102) with
      serFn := fun vv s => .ok (testSerU64 vv s),
      deFn := fun vv s => .ok (testDeU64 vv s) },
    { simpleField ⟨mkV 0 0 2, none⟩ (rdP readBool) (wrP encBool)
        (fun s => s.bool_1) (fun s x => { s with bool_1 := x }) (fun _ => false) with
      serFn := fun vv s => .ok (testSerBool vv s) },
    simpleField {} deserializeState (fun vv x => serializeState vv x)
      (fun s => s.enum_1) (fun s x => { s with enum_1 := x }) (fun _ => .One false),
    simpleField {} (rdP (readInt 1)) (wrP (encInt 1))
      (fun s => s.i8_1) (fun s x => { s with i8_1 := x }) (fun _ => 0),
    simpleField {} (rdP (readInt 2)) (wrP (encInt 2))
      (fun s => s.i16_1) (fun s x => { s with i16_1 := x }) (fun _ => 0),
    simpleField ⟨mkV 0 0 3, some (mkV 0 0 4)⟩ (rdP (readInt 4)) (wrP (encInt 4))
      (fun s => s.i32_1) (fun s x => { s with i32_1 := x }) (fun _ => 0),
    { simpleField ⟨mkV 0 0 2, none⟩ (rdP readS) (wrP encS)
        (fun s => s.box_1) (fun s x => { s with box_1 := x })
        (fun _ => ⟨0x3FF8000000000000, 2⟩) with
      deFn := fun vv s => testDeBox vv s },
    simpleField ⟨mkV 0 0 2, some (mkV 0 0 3)⟩ (rdP (readLE 4)) (wrP (encLE 4))
      (fun s => s.f32_1) (fun s x => { s with f32_1 := x }) (fun _ => 0x3F000000),
    simpleField {} (rdP readByte) (wrP (fun b => [b]))
      (fun s => s.char_1) (fun s x => { s with char_1 := x }) (fun _ => 0),
    { simpleField ⟨mkV 0 0 0, some (mkV 0 0 3)⟩
        (rdP (readOpt (readSeq readByte))) (wrP (encOpt (encSeq (fun b => [b]))))
        (fun s => s.option_1) (fun s x => { s with option_1 := x })
        (fun _ => some strSomething) with
      serFn := fun vv s => testSerOption vv s,
      deFn := fun vv s => .ok (testDeOption vv s) } ]

/-- Deserialize a `Test`. -/
def deserializeTest (vv : Version) (bs : List Nat) : VResult (TestSt × List Nat) :=
  deserializeStruct testFields vv testInit bs

/-- The `state3` value serialized as `TestV3` in `test_versionize_struct`
(4.5 as f64 is 0x4012000000000000, 1.25 as f32 is 0x3FA00000, 'c' is 0x63). -/
def testV3State : TestSt :=
  { usize_1 := 0x0102030405060708, isize_1 := -0x1122334455667788, u8_1 := 4,
    vec_1 := List.replicate 5 0x1122, wrapping_1 := 4,
    u64_1 := 0x0102030405060708, bool_1 := false,
    enum_1 := .Four (some 0x0102030405060708), i8_1 := 8, i16_1 := -12,
    i32_1 := -0x12345678, box_1 := ⟨0x4012000000000000, 4⟩,
    f32_1 := 0x3FA00000, char_1 := 0x63, option_1 := none }

/-- The value the test expects after restoring that wire as `Test` at source
version 0.0.3: `u8_1 = 9` is the serialized 4 + 2 (added by the hook of the
last field before any byte was written) + 3 (added by `de_isize`). -/
def expectedTestV3Restore : TestSt :=
  { usize_1 := 0x0102030405060708, isize_1 := 0, u8_1 := 9,
    vec_1 := List.replicate 5 0x1122 ++ [0x0101], wrapping_1 := 4,
    u64_1 := 0x0102010201020102, bool_1 := false,
    enum_1 := .Two (List.replicate 4 1), i8_1 := 8, i16_1 := -12,
    i32_1 := -0x12345678, box_1 := ⟨0x4012000000000000, 4⟩,
    f32_1 := 0x3F000000, char_1 := 0x63, option_1 := some strSomething }

/-! ## The array struct of test_versionize_struct_with_array -/

/-- In-memory shape of the ungated array struct: `a : [u32; 10]`,
`b : [u8; 20]`, `c : Option<[i16; 10]>`. -/
structure ArrTestSt where
  a : List Nat
  b : List Nat
  c : Option (List Int)
deriving DecidableEq

/-- All-default starting value of the array-struct decoder. -/
def arrTestInit : ArrTestSt := ⟨[], [], none⟩

/-- Field descriptors of the array struct: no version gates; fixed-size
arrays are written with no length prefix and read back by their
compile-time element counts. -/
def arrTestFields : List (FieldDesc ArrTestSt) :=
  [ simpleField {} (rdP (readN (readLE 4) 10)) (wrP (encEach (encLE 4)))
      (fun s => s.a) (fun s x => { s with a := x }) (fun _ => []),
    simpleField {} (rdP (readN readByte 20)) (wrP (encEach (fun x => [x])))
      (fun s => s.b) (fun s x => { s with b := x }) (fun _ => []),
    simpleField {} (rdP (readOpt (readN (readInt 2) 10)))
      (wrP (encOpt (encEach (encInt 2))))
      (fun s => s.c) (fun s x => { s with c := x }) (fun _ => none) ]

/-- Serialize the array struct. -/
def serializeArrTest (vv : Version) (s : ArrTestSt) : VResult (List Nat) :=
  serializeStruct arrTestFields vv s

/-- Deserialize the array struct. -/
def deserializeArrTest (vv : Version) (bs : List Nat) :
    VResult (ArrTestSt × List Nat) :=
  deserializeStruct arrTestFields vv arrTestInit bs

/-- Well-formedness of an array-struct value: the arrays have their declared
lengths and every element fits its machine type. -/
def arrTestWF (s : ArrTestSt) : Prop :=
  s.a.length = 10 ∧ (∀ x ∈ s.a, x < 256 ^ 4) ∧
  s.b.length = 20 ∧ (∀ x ∈ s.b, x < 256) ∧
  (s.c = none ∨ ∃ l, s.c = some l ∧ l.length = 10 ∧
    ∀ x ∈ l, -(2 ^ 15) ≤ x ∧ x < 2 ^ 15)

/-- The concrete value used by `test_versionize_struct_with_array`. -/
def arrTestValue : ArrTestSt :=
  ⟨List.replicate 10 1, List.replicate 20 2, some (List.replicate 10 3)⟩

/-! ## Auxiliary definitions for the statements -/

/-- Wire bytes of `State::Four(Some(0x1234_5678_8765_4321))`: discriminant
4, presence byte 1, then the `u64` payload. -/
def fourWire : List Nat := [4, 0, 0, 0, 1] ++ encLE 8 0x1234567887654321

/-- A `Message` FAM wire image as read at version 0.2.1 (the fresh-map
stand-in): claimed header count, `value` 0, `extra_value` 0, then the
element sequence (`padding` and `status` are absent at that version). -/
def famWire (claimed : Nat) (es : List Nat) : List Nat :=
  encLE 4 claimed ++ encLE 4 0 ++ encLE 2 0 ++ encSeq (encLE 4) es

/-- The wire bytes `serializeSomeStructV1` produces from `someV1State`:
count 2, padding 10 (the hook ran before the write), value 0, then the
length-prefixed entries. -/
def someV1Wire : List Nat :=
  [2, 0, 0, 0, 10, 0, 0, 0, 0, 0, 0, 0,
   2, 0, 0, 0, 0, 0, 0, 0, 1, 0, 0, 0, 2, 0, 0, 0]

/-- A field keeps the predicate `P` at version `vv` when its reader (used
when the gate is true) and its default synthesis (used when the gate is
false) both preserve `P`. -/
def fieldKeeps {σ : Type} (P : σ → Prop) (vv : Version) (f : FieldDesc σ) : Prop :=
  (presentAt f.bounds vv = true →
    ∀ s bs s' r, f.read vv s bs = .ok (s', r) → P s → P s') ∧
  (presentAt f.bounds vv = false → ∀ s, P s → P (f.dflt vv s))

/-! ## Order and gate lemmas -/

theorem version_lt_bot (a : Version) : Version.lt a ⟨0, 0, 0⟩ = false := by
  unfold Version.lt
  simp

theorem version_le_bot (a : Version) : Version.le ⟨0, 0, 0⟩ a = true := by
  unfold Version.le
  rw [version_lt_bot]
  rfl

/-- The strict order on versions is asymmetric. -/
theorem version_lt_asymm (a b : Version) (h : Version.lt a b = true) :
    Version.lt b a = false := by
  unfold Version.lt at h ⊢
  split_ifs at h ⊢ <;> simp_all <;> omega

/-- A strictly smaller version is also non-strictly smaller. -/
theorem version_le_of_lt (a b : Version) (h : Version.lt a b = true) :
    Version.le a b = true := by
  unfold Version.le
  rw [version_lt_asymm a b h]
  rfl

/-- A gate whose start equals its stop is false at every version. -/
theorem present_empty_gate (a vv : Version) :
    presentAt ⟨a, some a⟩ vv = false := by
  unfold presentAt Version.le
  cases h : Version.lt vv a <;> simp [h]

/-- The default (unbounded) gate is true at every version. -/
theorem present_default_gate (vv : Version) :
    presentAt {} vv = true := by
  unfold presentAt
  rw [show (({} : VersionBounds)).start = ⟨0, 0, 0⟩ from rfl]
  rw [version_le_bot]
  rfl

/-! ## Engine structure lemmas -/

/-- An absent head field contributes no bytes to the encoding. -/
theorem writeFields_cons_absent {σ : Type} (f : FieldDesc σ)
    (fs : List (FieldDesc σ)) (vv : Version) (s : σ)
    (h : presentAt f.bounds vv = false) :
    writeFields (f :: fs) vv s = writeFields fs vv s := by
  have hstep : writeFields (f :: fs) vv s =
      match (if presentAt f.bounds vv = true then f.write vv s else .ok []) with
      | .ok bytes =>
        match writeFields fs vv s with
        | .ok rest => .ok (bytes ++ rest)
        | .error e => .error e
      | .error e => .error e := rfl
  rw [hstep]
  simp only [h, Bool.false_eq_true, if_false]
  cases hw : writeFields fs vv s <;> simp

/-- A present head field contributes exactly its own bytes, in front. -/
theorem writeFields_cons_present {σ : Type} (f : FieldDesc σ)
    (fs : List (FieldDesc σ)) (vv : Version) (s : σ)
    (h : presentAt f.bounds vv = true) :
    writeFields (f :: fs) vv s =
      Except.bind (f.write vv s) (fun b =>
        Except.map (fun r => b ++ r) (writeFields fs vv s)) := by
  have hstep : writeFields (f :: fs) vv s =
      match (if presentAt f.bounds vv = true then f.write vv s else .ok []) with
      | .ok bytes =>
        match writeFields fs vv s with
        | .ok rest => .ok (bytes ++ rest)
        | .error e => .error e
      | .error e => .error e := rfl
  rw [hstep]
  simp only [h, if_true]
  cases hb : f.write vv s <;> cases hw : writeFields fs vv s <;>
    simp [Except.bind, Except.map]

/-- An absent head field is not read from the source: decoding continues on
the untouched byte stream with the field's value synthesized by its default
function at the source version. -/
theorem readFields_cons_absent {σ : Type} (f : FieldDesc σ)
    (fs : List (FieldDesc σ)) (vv : Version) (s : σ) (bs : List Nat)
    (h : presentAt f.bounds vv = false) :
    readFields (f :: fs) vv s bs = readFields fs vv (f.dflt vv s) bs := by
  have hstep : readFields (f :: fs) vv s bs =
      match (if presentAt f.bounds vv = true then f.read vv s bs
             else .ok (f.dflt vv s, bs)) with
      | .ok (s', bs') => readFields fs vv s' bs'
      | .error e => .error e := rfl
  rw [hstep]
  simp only [h, Bool.false_eq_true, if_false]

/-- A present head field is read from the source before the remaining
fields. -/
theorem readFields_cons_present {σ : Type} (f : FieldDesc σ)
    (fs : List (FieldDesc σ)) (vv : Version) (s : σ) (bs : List Nat)
    (h : presentAt f.bounds vv = true) :
    readFields (f :: fs) vv s bs =
      match f.read vv s bs with
      | .ok (s', bs') => readFields fs vv s' bs'
      | .error e => .error e := by
  have hstep : readFields (f :: fs) vv s bs =
      match (if presentAt f.bounds vv = true then f.read vv s bs
             else .ok (f.dflt vv s, bs)) with
      | .ok (s', bs') => readFields fs vv s' bs'
      | .error e => .error e := rfl
  rw [hstep]
  simp only [h, if_true]

/-- The pre-encode hook pass never consults the version gates. -/
theorem runSerHooks_bounds_blind {σ : Type} (fs : List (FieldDesc σ))
    (b : VersionBounds) (vv : Version) (s : σ) :
    runSerHooks (fs.map (fun f => { f with bounds := b })) vv s =
      runSerHooks fs vv s := by
  induction fs generalizing s with
  | nil => rfl
  | cons f fs ih =>
    unfold runSerHooks
    cases hf : f.serFn vv s <;> simp [hf, ih]

/-- The post-decode hook pass never consults the version gates. -/
theorem runDeHooks_bounds_blind {σ : Type} (fs : List (FieldDesc σ))
    (b : VersionBounds) (vv : Version) (s : σ) :
    runDeHooks (fs.map (fun f => { f with bounds := b })) vv s =
      runDeHooks fs vv s := by
  induction fs generalizing s with
  | nil => rfl
  | cons f fs ih =>
    unfold runDeHooks
    cases hf : f.deFn vv s <;> simp [hf, ih]

/-- Two states whose present fields write the same bytes produce the same
encoding. -/
theorem writeFields_congr {σ : Type} (fs : List (FieldDesc σ)) (vv : Version)
    (s t : σ)
    (h : ∀ f ∈ fs, presentAt f.bounds vv = true → f.write vv s = f.write vv t) :
    writeFields fs vv s = writeFields fs vv t := by
  induction fs with
  | nil => rfl
  | cons f fs ih =>
    unfold writeFields
    have hrest := ih (fun g hg hp => h g (List.mem_cons_of_mem f hg) hp)
    cases hp : presentAt f.bounds vv with
    | false => simp [hrest]
    | true => simp [h f (List.mem_cons_self f fs) hp, hrest]

/-- Field reads and default synthesis that keep a predicate keep it across a
whole decode pass. -/
theorem readFields_keeps {σ : Type} (P : σ → Prop) (fs : List (FieldDesc σ))
    (vv : Version) :
    ∀ (s : σ) (bs : List Nat) (s' : σ) (r : List Nat),
      (∀ f ∈ fs, fieldKeeps P vv f) →
      readFields fs vv s bs = .ok (s', r) → P s → P s' := by
  induction fs with
  | nil =>
    intro s bs s' r _ h hP
    unfold readFields at h
    cases h
    exact hP
  | cons f fs ih =>
    intro s bs s' r hk h hP
    unfold readFields at h
    cases hp : presentAt f.bounds vv with
    | true =>
      rw [hp] at h
      simp only [if_true] at h
      cases hr : f.read vv s bs with
      | ok p =>
        rw [hr] at h
        exact ih p.1 p.2 s' r (fun g hg => hk g (List.mem_cons_of_mem f hg)) h
          ((hk f (List.mem_cons_self f fs)).1 hp s bs p.1 p.2 hr hP)
      | error e => rw [hr] at h; cases h
    | false =>
      rw [hp] at h
      simp only [if_false, Bool.false_eq_true] at h
      exact ih (f.dflt vv s) bs s' r (fun g hg => hk g (List.mem_cons_of_mem f hg)) h
        ((hk f (List.mem_cons_self f fs)).2 hp s hP)

/-- Post-decode hooks that keep a predicate keep it across the hook pass. -/
theorem runDeHooks_keeps {σ : Type} (P : σ → Prop) (fs : List (FieldDesc σ))
    (vv : Version) :
    ∀ (s s' : σ),
      (∀ f ∈ fs, ∀ t t', f.deFn vv t = .ok t' → P t → P t') →
      runDeHooks fs vv s = .ok s' → P s → P s' := by
  induction fs with
  | nil =>
    intro s s' _ h hP
    unfold runDeHooks at h
    cases h
    exact hP
  | cons f fs ih =>
    intro s s' hk h hP
    unfold runDeHooks at h
    cases hf : f.deFn vv s with
    | ok t =>
      rw [hf] at h
      exact ih t s' (fun g hg => hk g (List.mem_cons_of_mem f hg)) h
        (hk f (List.mem_cons_self f fs) s t hf hP)
    | error e => rw [hf] at h; cases h

/-! ## Primitive codec roundtrip lemmas -/

theorem readLE_encLE (w x : Nat) (r : List Nat) :
    readLE w (encLE w x ++ r) = .ok (x % 256 ^ w, r) := by
  induction w generalizing x with
  | zero => simp [encLE, readLE, Nat.mod_one]
  | succ w ih =>
    have hstep : readLE (w + 1) (encLE (w + 1) x ++ r) =
        match readLE w (encLE w (x / 256) ++ r) with
        | .ok (hi, rest) => .ok (x % 256 + 256 * hi, rest)
        | .error e => .error e := rfl
    rw [hstep, ih]
    show Except.ok (x % 256 + 256 * (x / 256 % 256 ^ w), r) = _
    have harith : x % 256 + 256 * (x / 256 % 256 ^ w) = x % 256 ^ (w + 1) := by
      rw [pow_succ', ← Nat.mod_mul]
    rw [harith]

theorem readLE_encLE_of_lt (w x : Nat) (r : List Nat) (h : x < 256 ^ w) :
    readLE w (encLE w x ++ r) = .ok (x, r) := by
  rw [readLE_encLE, Nat.mod_eq_of_lt h]

theorem toTwos_lt (w : Nat) (x : Int) : toTwos w x < 256 ^ w := by
  unfold toTwos
  have hM : (0 : Int) < (256 : Int) ^ w := by positivity
  have h1 := Int.emod_lt_of_pos x hM
  have h2 := Int.emod_nonneg x (by omega : ((256 : Int) ^ w) ≠ 0)
  have hcast : ((256 : Int) ^ w) = ((256 ^ w : Nat) : Int) := by push_cast; ring
  omega

theorem fromTwos_toTwos (w : Nat) (x : Int)
    (h1 : -((256 : Int) ^ w) ≤ 2 * x) (h2 : 2 * x < (256 : Int) ^ w) :
    fromTwos w (toTwos w x) = x := by
  unfold fromTwos toTwos
  have hM : (0 : Int) < (256 : Int) ^ w := by positivity
  have e1 := Int.emod_nonneg x (by omega : ((256 : Int) ^ w) ≠ 0)
  have e4 : (((x % ((256 : Int) ^ w)).toNat : Nat) : Int) = x % ((256 : Int) ^ w) :=
    Int.toNat_of_nonneg e1
  have hcast : (((256 ^ w : Nat) : Int)) = (256 : Int) ^ w := by push_cast; ring
  have hxlt : x < (256 : Int) ^ w := by omega
  have hxgt : -((256 : Int) ^ w) < x := by omega
  have hcase : (0 ≤ x ∧ x % ((256 : Int) ^ w) = x) ∨
      (x < 0 ∧ x % ((256 : Int) ^ w) = x + (256 : Int) ^ w) := by
    rcases le_or_lt 0 x with hx | hx
    · exact Or.inl ⟨hx, Int.emod_eq_of_lt hx hxlt⟩
    · refine Or.inr ⟨hx, ?_⟩
      have h0 : 0 ≤ x + (256 : Int) ^ w := by omega
      have hlt : x + (256 : Int) ^ w < (256 : Int) ^ w := by omega
      have hshift : (x + (256 : Int) ^ w * 1) % ((256 : Int) ^ w) =
          x % ((256 : Int) ^ w) := Int.add_mul_emod_self_left x ((256 : Int) ^ w) 1
      have := Int.emod_eq_of_lt h0 hlt
      rw [mul_one] at hshift
      omega
  split
  case isTrue h => rcases hcase with ⟨hx, hr⟩ | ⟨hx, hr⟩ <;> omega
  case isFalse h => rcases hcase with ⟨hx, hr⟩ | ⟨hx, hr⟩ <;> omega

theorem readInt_encInt (w : Nat) (x : Int) (r : List Nat)
    (h1 : -((256 : Int) ^ w) ≤ 2 * x) (h2 : 2 * x < (256 : Int) ^ w) :
    readInt w (encInt w x ++ r) = .ok (x, r) := by
  unfold readInt encInt
  rw [readLE_encLE_of_lt w _ r (toTwos_lt w x)]
  show Except.ok (fromTwos w (toTwos w x), r) = _
  rw [fromTwos_toTwos w x h1 h2]

theorem readN_encEach {α : Type} (rd : List Nat → VResult (α × List Nat))
    (enc : α → List Nat) (l : List α) (r : List Nat)
    (h : ∀ x ∈ l, ∀ r', rd (enc x ++ r') = .ok (x, r')) :
    readN rd l.length (encEach enc l ++ r) = .ok (l, r) := by
  induction l generalizing r with
  | nil => simp [encEach, readN]
  | cons x xs ih =>
    have henc : encEach enc (x :: xs) ++ r = enc x ++ (encEach enc xs ++ r) := by
      simp [encEach]
    have hstep : readN rd (x :: xs).length (encEach enc (x :: xs) ++ r) =
        match rd (encEach enc (x :: xs) ++ r) with
        | .ok (y, rest) =>
          match readN rd xs.length rest with
          | .ok (ys, rest2) => .ok (y :: ys, rest2)
          | .error e => .error e
        | .error e => .error e := rfl
    rw [hstep, henc, h x (List.mem_cons_self x xs) _]
    show (match readN rd xs.length (encEach enc xs ++ r) with
      | .ok (ys, rest2) => Except.ok (x :: ys, rest2)
      | .error e => .error e) = _
    rw [ih r (fun y hy => h y (List.mem_cons_of_mem x hy))]

theorem readSeq_encSeq {α : Type} (rd : List Nat → VResult (α × List Nat))
    (enc : α → List Nat) (l : List α) (r : List Nat)
    (hlen : l.length < 256 ^ 8)
    (h : ∀ x ∈ l, ∀ r', rd (enc x ++ r') = .ok (x, r')) :
    readSeq rd (encSeq enc l ++ r) = .ok (l, r) := by
  unfold readSeq encSeq
  rw [List.append_assoc, readLE_encLE_of_lt 8 l.length _ hlen]
  exact readN_encEach rd enc l r h

theorem readOpt_encOpt {α : Type} (rd : List Nat → VResult (α × List Nat))
    (enc : α → List Nat) (o : Option α) (r : List Nat)
    (h : ∀ x ∈ o, ∀ r', rd (enc x ++ r') = .ok (x, r')) :
    readOpt rd (encOpt enc o ++ r) = .ok (o, r) := by
  cases o with
  | none => rfl
  | some x =>
    have hstep : readOpt rd (encOpt enc (some x) ++ r) =
        match rd (enc x ++ r) with
        | .ok (y, rest) => .ok (some y, rest)
        | .error e => .error e := rfl
    rw [hstep, h x (by simp) r]

/-! ## Roundtrip of the (ungated) array struct -/

theorem arrTest_roundtrip (vv : Version) (s : ArrTestSt) (h : arrTestWF s) :
    (match serializeArrTest vv s with
     | .ok w => deserializeArrTest vv w
     | .error e => .error e) = .ok (s, []) := by
  obtain ⟨ha10, haelts, hb20, hbelts, hc⟩ := h
  have hAelem : ∀ x ∈ s.a, ∀ r', readLE 4 (encLE 4 x ++ r') = .ok (x, r') :=
    fun x hx r' => readLE_encLE_of_lt 4 x r' (haelts x hx)
  have hBelem : ∀ x ∈ s.b, ∀ r', readByte ((fun y => [y]) x ++ r') = .ok (x, r') :=
    fun x _ r' => rfl
  have e1 : ∀ rest, readN (readLE 4) 10 (encEach (encLE 4) s.a ++ rest) =
      .ok (s.a, rest) := by
    intro rest
    rw [← ha10]
    exact readN_encEach _ _ _ _ hAelem
  have e2 : ∀ rest, readN readByte 20 (encEach (fun x => [x]) s.b ++ rest) =
      .ok (s.b, rest) := by
    intro rest
    rw [← hb20]
    exact readN_encEach _ _ _ _ hBelem
  have e3 : ∀ rest,
      readOpt (readN (readInt 2) 10) (encOpt (encEach (encInt 2)) s.c ++ rest) =
      .ok (s.c, rest) := by
    intro rest
    apply readOpt_encOpt
    intro l hl r'
    rcases hc with hnone | ⟨l0, hsome, hlen, hbnd⟩
    · rw [hnone] at hl
      cases hl
    · rw [hsome] at hl
      have hll : l0 = l := by simpa using hl
      subst hll
      rw [← hlen]
      refine readN_encEach _ _ _ _ (fun x hx r'' => readInt_encInt 2 x r'' ?_ ?_)
      · have hb := (hbnd x hx).1
        have h256 : ((256 : Int) ^ 2) = 65536 := by norm_num
        have h2 : ((2 : Int) ^ 15) = 32768 := by norm_num
        omega
      · have hb := (hbnd x hx).2
        have h256 : ((256 : Int) ^ 2) = 65536 := by norm_num
        have h2 : ((2 : Int) ^ 15) = 32768 := by norm_num
        omega
  have hser : serializeArrTest vv s =
      .ok (encEach (encLE 4) s.a ++ (encEach (fun x => [x]) s.b ++
        (encOpt (encEach (encInt 2)) s.c ++ []))) := by
    show (match runSerHooks arrTestFields vv s with
          | .ok s' => writeFields arrTestFields vv s'
          | .error e => .error e) = _
    have hhooks : runSerHooks arrTestFields vv s = .ok s := rfl
    rw [hhooks]
    show writeFields arrTestFields vv s = _
    simp only [arrTestFields, simpleField, wrP, writeFields, present_default_gate,
      if_true]
  have hread : readFields arrTestFields vv arrTestInit
      (encEach (encLE 4) s.a ++ (encEach (fun x => [x]) s.b ++
        (encOpt (encEach (encInt 2)) s.c ++ []))) = .ok (s, []) := by
    simp only [arrTestFields, simpleField, rdP, readFields, present_default_gate,
      if_true, e1, e2, e3]
  rw [hser]
  show deserializeArrTest vv _ = _
  unfold deserializeArrTest deserializeStruct
  rw [hread]
  rfl

/-! ## Helper lemmas for the enum fallback and the empty gate -/

/-- Decoding the `State::Four` wire reduces to the gate test followed by the
fallback. -/
theorem deserializeState_fourWire (vv : Version) :
    deserializeState vv fourWire =
      if presentAt (stateBounds (.Four (some 0x1234567887654321))) vv then
        .ok (.Four (some 0x1234567887654321), [])
      else
        match stateDefault (.Four (some 0x1234567887654321)) vv with
        | .ok s' => .ok (s', [])
        | .error e => .error e := rfl

/-- A `simpleField` whose setter keeps `P` keeps `P` through decode. -/
theorem simpleField_keeps {σ α : Type} {P : σ → Prop} {vv : Version}
    {b : VersionBounds} {rd : Version → List Nat → VResult (α × List Nat)}
    {wr : Version → α → VResult (List Nat)} {get : σ → α} {set : σ → α → σ}
    {dfv : Version → α}
    (hset : ∀ s x, P s → P (set s x)) :
    fieldKeeps P vv (simpleField b rd wr get set dfv) := by
  constructor
  · intro _ s bs s' r hr hP
    have hstep : (simpleField b rd wr get set dfv).read vv s bs =
        match rd vv bs with
        | .ok p => .ok (set s p.1, p.2)
        | .error e => .error e := by
      show (match rd vv bs with
            | .ok (x, rest) => Except.ok (set s x, rest)
            | .error e => .error e) = _
      cases rd vv bs with
      | ok p => rfl
      | error e => rfl
    rw [hstep] at hr
    cases hrd : rd vv bs with
    | ok p =>
      rw [hrd] at hr
      cases hr
      exact hset s p.1 hP
    | error e => rw [hrd] at hr; cases hr
  · intro _ s hP
    exact hset s (dfv vv) hP

/-- The `i16_1` descriptor keeps "i16_1 is zero": its gate is empty, so its
reader is unreachable and its default synthesis writes 0. -/
theorem i16Field_keeps (vv : Version) :
    fieldKeeps (fun s => s.i16_1 = 0) vv i16Field := by
  constructor
  · intro hp
    rw [show i16Field.bounds = (⟨mkV 0 2 0, some (mkV 0 2 0)⟩ : VersionBounds)
      from rfl, present_empty_gate] at hp
    cases hp
  · intro _ s _
    rfl

/-- Every `TestStruct` field keeps "i16_1 is zero" through decode. -/
theorem testStructFields_keep_i16 (vv : Version) :
    ∀ f ∈ testStructFields, fieldKeeps (fun s => s.i16_1 = 0) vv f := by
  intro f hf
  simp only [testStructFields, List.mem_cons, List.not_mem_nil, or_false] at hf
  rcases hf with rfl | rfl | rfl | rfl | rfl | rfl | rfl | rfl | rfl | rfl | rfl |
    rfl | rfl | rfl | rfl | rfl | rfl | rfl
  case _ => exact simpleField_keeps (fun s x hP => hP)
  case _ => exact simpleField_keeps (fun s x hP => hP)
  case _ => exact simpleField_keeps (fun s x hP => hP)
  case _ => exact simpleField_keeps (fun s x hP => hP)
  case _ => exact simpleField_keeps (fun s x hP => hP)
  case _ => exact i16Field_keeps vv
  case _ => exact simpleField_keeps (fun s x hP => hP)
  case _ => exact simpleField_keeps (fun s x hP => hP)
  case _ => exact simpleField_keeps (fun s x hP => hP)
  case _ => exact simpleField_keeps (fun s x hP => hP)
  case _ => exact simpleField_keeps (fun s x hP => hP)
  case _ => exact simpleField_keeps (fun s x hP => hP)
  case _ => exact simpleField_keeps (fun s x hP => hP)
  case _ => exact simpleField_keeps (fun s x hP => hP)
  case _ => exact simpleField_keeps (fun s x hP => hP)
  case _ => exact simpleField_keeps (fun s x hP => hP)
  case _ => exact simpleField_keeps (fun s x hP => hP)
  case _ => exact simpleField_keeps (fun s x hP => hP)

/-- Whatever the source version and bytes, a successfully decoded
`TestStruct` carries 0 in `i16_1`. -/
theorem testStruct_decode_i16_zero (vv : Version) (bs : List Nat)
    (s : TestStruct) (rest : List Nat)
    (h : deserializeTestStruct vv bs = .ok (s, rest)) : s.i16_1 = 0 := by
  unfold deserializeTestStruct deserializeStruct at h
  cases hr : readFields testStructFields vv testStructInit bs with
  | error e => rw [hr] at h; cases h
  | ok p =>
    obtain ⟨s1, r1⟩ := p
    rw [hr] at h
    have h' : (match runDeHooks testStructFields vv s1 with
        | .ok s' => Except.ok (s', r1)
        | .error e => .error e) = Except.ok (s, rest) := h
    have hdh : runDeHooks testStructFields vv s1 = .ok s1 := rfl
    rw [hdh] at h'
    cases h'
    exact readFields_keeps _ testStructFields vv testStructInit bs _ _
      (testStructFields_keep_i16 vv) hr rfl

/-- The `TestStruct` serializer ignores the value of `i16_1`. -/
theorem testStruct_encode_ignores_i16 (vv : Version) (x : Int) (s : TestStruct) :
    serializeTestStruct vv { s with i16_1 := x } = serializeTestStruct vv s := by
  unfold serializeTestStruct serializeStruct
  have h1 : runSerHooks testStructFields vv { s with i16_1 := x } =
      .ok { s with i16_1 := x } := rfl
  have h2 : runSerHooks testStructFields vv s = .ok s := rfl
  rw [h1, h2]
  show writeFields testStructFields vv { s with i16_1 := x } =
    writeFields testStructFields vv s
  apply writeFields_congr
  intro f hf
  simp only [testStructFields, List.mem_cons, List.not_mem_nil, or_false] at hf
  rcases hf with rfl | rfl | rfl | rfl | rfl | rfl | rfl | rfl | rfl | rfl | rfl |
    rfl | rfl | rfl | rfl | rfl | rfl | rfl
  case _ => intro _; rfl
  case _ => intro _; rfl
  case _ => intro _; rfl
  case _ => intro _; rfl
  case _ => intro _; rfl
  case _ =>
    intro hp
    rw [show i16Field.bounds = (⟨mkV 0 2 0, some (mkV 0 2 0)⟩ : VersionBounds)
      from rfl, present_empty_gate] at hp
    cases hp
  case _ => intro _; rfl
  case _ => intro _; rfl
  case _ => intro _; rfl
  case _ => intro _; rfl
  case _ => intro _; rfl
  case _ => intro _; rfl
  case _ => intro _; rfl
  case _ => intro _; rfl
  case _ => intro _; rfl
  case _ => intro _; rfl
  case _ => intro _; rfl
  case _ => intro _; rfl

/-! ## Claims -/

/-- Claim C1: for every struct field with version bounds [start, end) and
every version V the VersionMap resolves for the owning component: on encode
the field's bytes appear on the wire iff start ≤ V < end (an absent field
contributes zero bytes), and on decode the field is read from the source iff
start ≤ V < end, otherwise its value is synthesized by its default function
at the source version.  Concretely over `TestStruct`: `isize_1` with bounds
[0.2.0, 0.4.0) is present at 0.2.0 and 0.3.0 and absent at 0.1.0 and 0.4.0;
the four hardcoded snapshots decode to the expected values (with `isize_1`
synthesized to `default_isize`'s 12 at 0.1.0 and 0.4.0), and re-encoding the
expected values at each version reproduces the snapshots byte for byte (the
0.2.0 and 0.3.0 images carry the 8 `isize_1` bytes, the others do not). -/
theorem claim_C1 :
    (∀ (σ : Type) (f : FieldDesc σ) (fs : List (FieldDesc σ)) (vv : Version)
        (s : σ),
      presentAt f.bounds vv = false →
        writeFields (f :: fs) vv s = writeFields fs vv s) ∧
    (∀ (σ : Type) (f : FieldDesc σ) (fs : List (FieldDesc σ)) (vv : Version)
        (s : σ),
      presentAt f.bounds vv = true →
        writeFields (f :: fs) vv s =
          Except.bind (f.write vv s)
            (fun b => Except.map (fun r => b ++ r) (writeFields fs vv s))) ∧
    (∀ (σ : Type) (f : FieldDesc σ) (fs : List (FieldDesc σ)) (vv : Version)
        (s : σ) (bs : List Nat),
      presentAt f.bounds vv = false →
        readFields (f :: fs) vv s bs = readFields fs vv (f.dflt vv s) bs) ∧
    (presentAt isizeBounds (mkV 0 2 0) = true ∧
     presentAt isizeBounds (mkV 0 3 0) = true ∧
     presentAt isizeBounds (mkV 0 1 0) = false ∧
     presentAt isizeBounds (mkV 0 4 0) = false) ∧
    (deserializeTestStruct (mkV 0 1 0) v1Snapshot = .ok (expectedStateV1, []) ∧
     deserializeTestStruct (mkV 0 2 0) v2Snapshot = .ok (expectedStateV2, []) ∧
     deserializeTestStruct (mkV 0 3 0) v3Snapshot = .ok (expectedStateV3, []) ∧
     deserializeTestStruct (mkV 0 4 0) v4Snapshot = .ok (expectedStateV4, [])) ∧
    (serializeTestStruct (mkV 0 1 0) expectedStateV1 = .ok v1Snapshot ∧
     serializeTestStruct (mkV 0 2 0) expectedStateV2 = .ok v2Snapshot ∧
     serializeTestStruct (mkV 0 3 0) expectedStateV3 = .ok v3Snapshot ∧
     serializeTestStruct (mkV 0 4 0) expectedStateV4 = .ok v4Snapshot) ∧
    expectedStateV1.isize_1 = 12 ∧ expectedStateV4.isize_1 = 12 :=
  ⟨fun _ f fs vv s h => writeFields_cons_absent f fs vv s h,
   fun _ f fs vv s h => writeFields_cons_present f fs vv s h,
   fun _ f fs vv s bs h => readFields_cons_absent f fs vv s bs h,
   ⟨by decide, by decide, by decide, by decide⟩,
   ⟨by decide, by decide, by decide, by decide⟩,
   ⟨by decide, by decide, by decide, by decide⟩,
   by decide, by decide⟩

/-- Closed instance of claim C1 at the `isize_1` descriptor: absent at
0.1.0 it writes nothing and decodes to its synthesized default; present at
0.2.0 it writes its own bytes in front. -/
theorem claim_C1_witness :
    writeFields [isizeField] (mkV 0 1 0) expectedStateV1 =
      writeFields ([] : List (FieldDesc TestStruct)) (mkV 0 1 0) expectedStateV1 ∧
    writeFields [isizeField] (mkV 0 2 0) expectedStateV2 =
      Except.bind (isizeField.write (mkV 0 2 0) expectedStateV2)
        (fun b => Except.map (fun r => b ++ r)
          (writeFields ([] : List (FieldDesc TestStruct)) (mkV 0 2 0)
            expectedStateV2)) ∧
    readFields [isizeField] (mkV 0 1 0) testStructInit [] =
      readFields ([] : List (FieldDesc TestStruct)) (mkV 0 1 0)
        (isizeField.dflt (mkV 0 1 0) testStructInit) [] :=
  ⟨claim_C1.1 TestStruct isizeField [] (mkV 0 1 0) expectedStateV1 (by decide),
   claim_C1.2.1 TestStruct isizeField [] (mkV 0 2 0) expectedStateV2 (by decide),
   claim_C1.2.2.1 TestStruct isizeField [] (mkV 0 1 0) testStructInit []
     (by decide)⟩

/-- Claim C2 counterexample: the claim says a pre-encode hook runs after its
own field's bytes are committed, so a mutation to that field is not on the
wire.  In `SomeStructV1` the hook on the `message` field adds 2 to the
wrapped header's `padding` (8), and the serialized wire carries 10, not 8:
the hook's mutation of its own field is reflected in that field's bytes
(this is what `test_famstructwrapper_clone` asserts via the restored
value). -/
theorem claim_C2_counterexample :
    serializeSomeStructV1 (mkV 0 2 1) someV1State = .ok someV1Wire ∧
    someV1State.message.hdr.padding = 8 ∧
    (someV1Wire.drop 4).take 4 = encLE 4 (someV1State.message.hdr.padding + 2) ∧
    (someV1Wire.drop 4).take 4 ≠ encLE 4 someV1State.message.hdr.padding :=
  ⟨by decide, by decide, by decide, by decide⟩

/-- Claim C2 as amended: during struct encode all declared pre-encode hooks
run first, in declaration order, on a working copy, before any field bytes
are written; consequently a mutation a hook makes to any field — its own,
an earlier-declared one, or a later one — is reflected in the wire bytes of
every field that is present at the target version.  Witnessed by the
`SomeStructV1` wire carrying `padding` 10 (own field) and by the
`test_versionize_struct` scenario where the hook of the last `TestV3` field
adds 2 to `u8_1` (declared twelve fields earlier) and the restored value is
9 = (4 + 2 on the wire) + 3 added by `de_isize`. -/
theorem claim_C2 :
    (∀ (σ : Type) (fs : List (FieldDesc σ)) (vv : Version) (s : σ),
      serializeStruct fs vv s =
        match runSerHooks fs vv s with
        | .ok s' => writeFields fs vv s'
        | .error e => .error e) ∧
    serializeSomeStructV1 (mkV 0 2 1) someV1State = .ok someV1Wire ∧
    (match serializeTestV3 (mkV 0 2 1) testV3State with
     | .ok w => deserializeTest (mkV 0 0 3) w
     | .error e => .error e) = .ok (expectedTestV3Restore, []) ∧
    testV3State.u8_1 = 4 ∧ expectedTestV3Restore.u8_1 = 9 :=
  ⟨fun _ _ _ _ => rfl, by decide, by decide, by decide, by decide⟩

/-- Claim C3: declared hooks execute on every encode/decode regardless of
whether their field's gate makes the field present or absent: the hook
passes never consult the version bounds (replacing every field's bounds
changes nothing), `DeviceV1::ser_v1` on the ungated `name` field runs and
its mutations reach the wire (restored as the expected post-hook `Device`
value at 0.1.1), and `Device::ser_extra` aborts the encode with its semantic
error both at 0.1.1 — where its `extra_features` field is absent — and at
any other version, on a value whose queue count exceeds the limit. -/
theorem claim_C3 :
    (∀ (σ : Type) (fs : List (FieldDesc σ)) (b : VersionBounds) (vv : Version)
        (s : σ),
      runSerHooks (fs.map (fun f => { f with bounds := b })) vv s =
        runSerHooks fs vv s) ∧
    (∀ (σ : Type) (fs : List (FieldDesc σ)) (b : VersionBounds) (vv : Version)
        (s : σ),
      runDeHooks (fs.map (fun f => { f with bounds := b })) vv s =
        runDeHooks fs vv s) ∧
    (match serializeDeviceV1 (mkV 0 2 1) deviceV1State with
     | .ok w => deserializeDevice (mkV 0 1 1) w
     | .error e => .error e) = .ok (expectedDeviceV1Restore, []) ∧
    serializeDevice (mkV 0 1 1) deviceOverLimit =
      .error (.Semantic "Too many queues.") ∧
    presentAt ⟨mkV 0 1 3, none⟩ (mkV 0 1 1) = false ∧
    (∀ vv : Version, serializeDevice vv deviceFourQueues =
      .error (.Semantic "Too many queues.")) := by
  refine ⟨fun _ fs b vv s => runSerHooks_bounds_blind fs b vv s,
    fun _ fs b vv s => runDeHooks_bounds_blind fs b vv s,
    by decide, by decide, by decide, ?_⟩
  intro vv
  by_cases hle : Version.le vv (mkV 0 1 3) = true
  · by_cases hlt : Version.lt vv (mkV 0 1 3) = true
    · simp [serializeDevice, serializeStruct, deviceFields, runSerHooks,
        simpleField, deviceSerOps, deviceSerQueuesLimit, deviceSerExtra,
        deviceFourQueues, hle, hlt]
    · simp [serializeDevice, serializeStruct, deviceFields, runSerHooks,
        simpleField, deviceSerOps, deviceSerQueuesLimit, deviceSerExtra,
        deviceFourQueues, hle, hlt]
  · by_cases hlt : Version.lt vv (mkV 0 1 3) = true
    · exact absurd (version_le_of_lt vv (mkV 0 1 3) hlt) hle
    · simp [serializeDevice, serializeStruct, deviceFields, runSerHooks,
        simpleField, deviceSerOps, deviceSerQueuesLimit, deviceSerExtra,
        deviceFourQueues, hle, hlt]

/-- Claim C4: when enum decode reads a discriminant whose variant gate is
false at the source version, the engine invokes the variant's
default-synthesis function on the decoded value and the source version and
returns the replacement variant it produces — the `State::Four(Some(...))`
wire decoded at 0.0.1 (and at any gate-false version with patch 1..9)
becomes `State::Zero(4)`; when the function reports no mapping for that
version, the whole decode fails with the error carrying the message that
names the version (its patch number, exactly as `default_state_four`
formats it). -/
theorem claim_C4 :
    (∀ vv : Version,
      presentAt (stateBounds (.Four (some 0x1234567887654321))) vv = false →
      1 ≤ vv.patch → vv.patch ≤ 9 →
        deserializeState vv fourWire = .ok (.Zero 4, [])) ∧
    deserializeState (mkV 0 0 1) fourWire = .ok (.Zero 4, []) ∧
    (∀ vv : Version,
      presentAt (stateBounds (.Four (some 0x1234567887654321))) vv = false →
      ¬(1 ≤ vv.patch ∧ vv.patch ≤ 9) →
        deserializeState vv fourWire =
          .error (.Serialize ("Unknown target version: " ++ toString vv.patch))) ∧
    deserializeState (mkV 0 0 3) fourWire =
      .ok (.Four (some 0x1234567887654321), []) := by
  refine ⟨?_, by decide, ?_, by decide⟩
  · intro vv hp h1 h9
    rw [deserializeState_fourWire, if_neg (by simp [hp])]
    have hd : stateDefault (.Four (some 0x1234567887654321)) vv = .ok (.Zero 4) := by
      show (if 1 ≤ vv.patch ∧ vv.patch ≤ 9 then
              (Except.ok (State.Zero 4) : VResult State)
            else Except.error (VersionizeError.Serialize
              ("Unknown target version: " ++ toString vv.patch))) =
        Except.ok (State.Zero 4)
      rw [if_pos ⟨h1, h9⟩]
    rw [hd]
  · intro vv hp hno
    rw [deserializeState_fourWire, if_neg (by simp [hp])]
    have hd : stateDefault (.Four (some 0x1234567887654321)) vv =
        .error (.Serialize ("Unknown target version: " ++ toString vv.patch)) := by
      show (if 1 ≤ vv.patch ∧ vv.patch ≤ 9 then
              (Except.ok (State.Zero 4) : VResult State)
            else Except.error (VersionizeError.Serialize
              ("Unknown target version: " ++ toString vv.patch))) =
        Except.error (VersionizeError.Serialize
          ("Unknown target version: " ++ toString vv.patch))
      rw [if_neg hno]
    rw [hd]

/-- Closed instances of claim C4: the fallback at gate-false version 0.0.2
and the unmappable-version failure at 0.2.10. -/
theorem claim_C4_witness :
    deserializeState (mkV 0 0 2) fourWire = .ok (.Zero 4, []) ∧
    deserializeState (mkV 0 2 10) fourWire =
      .error (.Serialize ("Unknown target version: " ++
        toString (mkV 0 2 10).patch)) :=
  ⟨claim_C4.1 (mkV 0 0 2) (by decide) (by decide) (by decide),
   claim_C4.2.2.1 (mkV 0 2 10) (by decide) (by decide)⟩

/-- Claim C5 counterexample: on the corrupted buffer of
`test_deserialize_famstructwrapper_invalid_len` the claimed count 255
exceeds the maximum capacity 100, yet decode fails with the declared/actual
mismatch `Deserialize` error, not with the capacity error — so "fails with a
capacity error whenever the claimed count exceeds the maximum capacity" is
false as stated. -/
theorem claim_C5_counterexample :
    deserializeFamMsg (mkV 0 2 1) corruptFamBuffer =
      .error (famMismatchError 255 0) ∧
    (100 : Nat) < 255 ∧
    famMismatchError 255 0 ≠ famCapacityError :=
  ⟨by decide, by decide, by decide⟩

/-- Claim C5 as amended: FamStructWrapper decode fails with the
`Deserialize` mismatch error naming both numbers whenever the claimed
header count differs from the element count found in the source, and fails
with the capacity error whenever the claimed count equals the actual count
but exceeds the construction-time maximum (maximum 1 with 2 serialized
elements in the `SomeStruct2` scenario). -/
theorem claim_C5 :
    (∀ (claimed : Nat) (es : List Nat), claimed < 256 ^ 4 →
      (∀ x ∈ es, x < 256 ^ 4) → es.length < 256 ^ 8 → claimed ≠ es.length →
        deserializeFamMsg (mkV 0 2 1) (famWire claimed es) =
          .error (famMismatchError claimed es.length)) ∧
    (∀ (claimed : Nat) (es : List Nat), claimed < 256 ^ 4 →
      (∀ x ∈ es, x < 256 ^ 4) → es.length < 256 ^ 8 → claimed = es.length →
      100 < claimed →
        deserializeFamMsg (mkV 0 2 1) (famWire claimed es) =
          .error famCapacityError) ∧
    (match serializeSomeStructV1 (mkV 0 2 1) someV1State with
     | .ok w => deserializeSomeStruct2 (mkV 0 1 0) w
     | .error e => .error e) = .error famCapacityError := by
  have hkey : ∀ (claimed : Nat) (es : List Nat), claimed < 256 ^ 4 →
      (∀ x ∈ es, x < 256 ^ 4) → es.length < 256 ^ 8 →
      deserializeFamMsg (mkV 0 2 1) (famWire claimed es) =
        if claimed ≠ es.length then .error (famMismatchError claimed es.length)
        else if 100 < es.length then .error famCapacityError
        else .ok (⟨⟨claimed, 0, 0, 0, false⟩, es⟩, []) := by
    intro claimed es hcl hes hlen
    have hp1 : presentAt ({} : VersionBounds) (mkV 0 2 1) = true := by decide
    have hp2 : presentAt (⟨mkV 0 0 0, some (mkV 0 1 4)⟩ : VersionBounds)
        (mkV 0 2 1) = false := by decide
    have hp3 : presentAt (⟨mkV 0 1 2, none⟩ : VersionBounds) (mkV 0 2 1) = true := by
      decide
    have hp4 : presentAt (⟨mkV 0 1 3, some (mkV 0 1 4)⟩ : VersionBounds)
        (mkV 0 2 1) = false := by decide
    have hr1 : ∀ r, readLE 4 (encLE 4 claimed ++ r) = .ok (claimed, r) :=
      fun r => readLE_encLE_of_lt _ _ _ hcl
    have hr2 : ∀ r, readLE 4 (encLE 4 0 ++ r) = .ok (0, r) :=
      fun r => readLE_encLE_of_lt _ _ _ (by norm_num)
    have hr3 : ∀ r, readLE 2 (encLE 2 0 ++ r) = .ok (0, r) :=
      fun r => readLE_encLE_of_lt _ _ _ (by norm_num)
    have hseq : readSeq (readLE 4) (encSeq (encLE 4) es) = .ok (es, []) := by
      have h := readSeq_encSeq (readLE 4) (encLE 4) es [] hlen
        (fun x hx r' => readLE_encLE_of_lt _ _ _ (hes x hx))
      rwa [List.append_nil] at h
    have hhdr : deserializeStruct messageHeaderFields (mkV 0 2 1) msgHeaderInit
        (famWire claimed es) =
        .ok (⟨claimed, 0, 0, 0, false⟩, encSeq (encLE 4) es) := by
      unfold famWire deserializeStruct
      have hrf : readFields messageHeaderFields (mkV 0 2 1) msgHeaderInit
          (encLE 4 claimed ++ encLE 4 0 ++ encLE 2 0 ++ encSeq (encLE 4) es) =
          .ok (⟨claimed, 0, 0, 0, false⟩, encSeq (encLE 4) es) := by
        simp only [List.append_assoc]
        simp only [messageHeaderFields, simpleField, rdP, readFields, hp1, hp2,
          hp3, hp4, if_true, if_false, Bool.false_eq_true, hr1, hr2, hr3]
      rw [hrf]
      rfl
    have hstep : deserializeFamMsg (mkV 0 2 1) (famWire claimed es) =
        match readSeq (readLE 4) (encSeq (encLE 4) es) with
        | .ok (es', r2) =>
          if claimed ≠ es'.length then .error (famMismatchError claimed es'.length)
          else if 100 < es'.length then .error famCapacityError
          else .ok (⟨⟨claimed, 0, 0, 0, false⟩, es'⟩, r2)
        | .error e => .error e := by
      unfold deserializeFamMsg deserializeFam
      rw [hhdr]
    rw [hstep, hseq]
  refine ⟨?_, ?_, by decide⟩
  · intro claimed es hcl hes hlen hne
    rw [hkey claimed es hcl hes hlen, if_pos hne]
  · intro claimed es hcl hes hlen heq hcap
    rw [hkey claimed es hcl hes hlen, if_neg (by omega), if_pos (by omega)]

/-- Closed instances of claim C5: mismatch (255 declared, 0 actual) and
capacity overflow (101 elements against a maximum of 100). -/
theorem claim_C5_witness :
    deserializeFamMsg (mkV 0 2 1) (famWire 255 []) =
      .error (famMismatchError 255 0) ∧
    deserializeFamMsg (mkV 0 2 1) (famWire 101 (List.replicate 101 0)) =
      .error famCapacityError :=
  ⟨claim_C5.1 255 [] (by decide) (by decide) (by decide) (by decide),
   claim_C5.2.1 101 (List.replicate 101 0) (by decide) (by decide) (by decide)
     (by decide) (by decide)⟩

/-- Claim C6: an enum value encodes as the 4-byte little-endian index of its
variant within the type's full declaration-order variant list (never
renumbered per version view), followed positionally by the payload with no
further tagging, and unit variants contribute no payload bytes: `One(u32)`
at index 1 gives `01 00 00 00` plus 4 payload bytes (`One(2)` from the v1
snapshot), `Two(u64)` at index 2 gives `02 00 00 00` plus 8 bytes, the unit
variant `DeviceStatus::Active` is exactly `01 00 00 00`, and the gated
`State::Four` still carries its full-list index 4 when present. -/
theorem claim_C6 :
    (∀ (vv : Version) (x : Nat),
      encodeTestState vv (.One x) = .ok ([1, 0, 0, 0] ++ encLE 4 x)) ∧
    (∀ (vv : Version) (x : Nat),
      encodeTestState vv (.Two x) = .ok ([2, 0, 0, 0] ++ encLE 8 x)) ∧
    (∀ vv : Version, encodeTestState vv (.One 2) = .ok [1, 0, 0, 0, 2, 0, 0, 0]) ∧
    (∀ vv : Version, encodeTestState vv (.Two 14) =
      .ok [2, 0, 0, 0, 14, 0, 0, 0, 0, 0, 0, 0]) ∧
    (∀ (vv : Version) (x : Nat) (r : List Nat), x < 256 ^ 4 →
      decodeTestState vv ([1, 0, 0, 0] ++ (encLE 4 x ++ r)) = .ok (.One x, r)) ∧
    (∀ vv : Version, serializeDeviceStatus vv .Active = .ok [1, 0, 0, 0]) ∧
    serializeState (mkV 0 0 3) (.Four none) = .ok [4, 0, 0, 0, 0] := by
  refine ⟨fun _ _ => rfl, fun _ _ => rfl, fun _ => rfl, fun _ => rfl, ?_, ?_,
    by decide⟩
  · intro vv x r hx
    show (match readLE 4 (encLE 4 x ++ r) with
          | .ok (y, rest2) => Except.ok (TestState.One y, rest2)
          | .error e => .error e) = _
    rw [readLE_encLE_of_lt _ _ _ hx]
  · intro vv
    show (if presentAt (deviceStatusBounds .Active) vv = true then
            Except.ok (encLE 4 (deviceStatusIndex .Active) ++
              deviceStatusPayload .Active)
          else
            match deviceStatusDefault .Active vv with
            | .ok s' => serializeDeviceStatusAux 4 vv s'
            | .error e => .error e) = Except.ok [1, 0, 0, 0]
    rw [show presentAt (deviceStatusBounds .Active) vv = true from
      present_default_gate vv]
    rfl

/-- Closed instance of claim C6's decode direction. -/
theorem claim_C6_witness :
    decodeTestState (mkV 0 1 0) ([1, 0, 0, 0] ++ (encLE 4 7 ++ [9])) =
      .ok (.One 7, [9]) :=
  claim_C6.2.2.2.2.1 (mkV 0 1 0) 7 [9] (by decide)

/-- Claim C7: for every well-formed value of the ungated array struct
(`a: [u32; 10]`, `b: [u8; 20]`, `c: Option<[i16; 10]>`) and every resolved
version — in particular the fresh, unbounded map — deserializing the bytes
produced by serializing the value with the same map returns the value,
consuming the wire exactly. -/
theorem claim_C7 (vv : Version) (s : ArrTestSt) (h : arrTestWF s) :
    (match serializeArrTest vv s with
     | .ok w => deserializeArrTest vv w
     | .error e => .error e) = .ok (s, []) :=
  arrTest_roundtrip vv s h

/-- Closed instance of claim C7 at the test's concrete value. -/
theorem claim_C7_witness :
    arrTestWF arrTestValue ∧
    (match serializeArrTest (mkV 0 1 0) arrTestValue with
     | .ok w => deserializeArrTest (mkV 0 1 0) w
     | .error e => .error e) = .ok (arrTestValue, []) := by
  have hwf : arrTestWF arrTestValue :=
    ⟨by decide, by decide, by decide, by decide,
     Or.inr ⟨List.replicate 10 3, rfl, by decide, by decide⟩⟩
  exact ⟨hwf, claim_C7 (mkV 0 1 0) arrTestValue hwf⟩

/-- Claim C8: `Option<u8>::Some(129)` encodes as exactly the two bytes
`[0x01, 0x81]` (presence byte then payload), and decoding the byte 0x00 as
an `Option` yields `None` consuming exactly that one byte — the remainder of
the stream is untouched. -/
theorem claim_C8 :
    encOpt (fun b => [b]) (some 129) = [0x01, 0x81] ∧
    (∀ r : List Nat, readOpt readByte (0 :: r) = .ok (none, r)) ∧
    readOpt readByte [0x00] = .ok (none, []) :=
  ⟨by decide, fun _ => rfl, by decide⟩

/-- Claim C9: serialize takes the value immutably and returns only bytes:
every hook mutation happens on an internal working copy that exists solely
to produce the wire (last conjunct), so after serializing `SomeStructV1` the
caller's value still holds `padding` 8 while the wire — and hence the
restored value — carries 10. -/
theorem claim_C9 :
    someV1State.message.hdr.padding = 8 ∧
    (match serializeSomeStructV1 (mkV 0 2 1) someV1State with
     | .ok w => deserializeSomeStruct (mkV 0 1 0) w
     | .error e => .error e) =
      .ok (⟨⟨⟨2, 10, 0, 4, false⟩, [1, 2]⟩, 0⟩, []) ∧
    ((⟨⟨⟨2, 10, 0, 4, false⟩, [1, 2]⟩, 0⟩ : SomeStructSt).message.hdr.padding ≠
      someV1State.message.hdr.padding) ∧
    (∀ (σ : Type) (fs : List (FieldDesc σ)) (vv : Version) (s : σ)
        (w : List Nat),
      serializeStruct fs vv s = .ok w →
        ∃ s', runSerHooks fs vv s = .ok s' ∧ writeFields fs vv s' = .ok w) := by
  refine ⟨by decide, by decide, by decide, ?_⟩
  intro σ fs vv s w h
  unfold serializeStruct at h
  cases hh : runSerHooks fs vv s with
  | ok s' => rw [hh] at h; exact ⟨s', rfl, h⟩
  | error e => rw [hh] at h; cases h

/-- Closed instance of claim C9's copy property on the `SomeStructV1`
serialization. -/
theorem claim_C9_witness :
    ∃ s', runSerHooks someStructV1Fields (mkV 0 2 1) someV1State = .ok s' ∧
      writeFields someStructV1Fields (mkV 0 2 1) s' = .ok someV1Wire :=
  claim_C9.2.2.2 SomeStructV1St someStructV1Fields (mkV 0 2 1) someV1State
    someV1Wire (by decide)

/-- Claim C10: a field whose start bound equals its end bound
(`TestStruct.i16_1` with start = end = 0.2.0) is present at no version
whatsoever: its gate is false for every version (including 0.2.0 itself),
alone it writes zero bytes, the whole-struct encoding does not depend on its
value at any target version, and every successful decode, at every source
version and from any bytes, leaves it at its type's default value 0. -/
theorem claim_C10 :
    (∀ vv : Version, presentAt i16Bounds vv = false) ∧
    (∀ (vv : Version) (s : TestStruct), writeFields [i16Field] vv s = .ok []) ∧
    (∀ (vv : Version) (x : Int) (s : TestStruct),
      serializeTestStruct vv { s with i16_1 := x } = serializeTestStruct vv s) ∧
    (∀ (vv : Version) (bs : List Nat) (s : TestStruct) (rest : List Nat),
      deserializeTestStruct vv bs = .ok (s, rest) → s.i16_1 = 0) := by
  refine ⟨fun vv => present_empty_gate (mkV 0 2 0) vv, ?_,
    testStruct_encode_ignores_i16, testStruct_decode_i16_zero⟩
  intro vv s
  rw [writeFields_cons_absent _ _ _ _ (present_empty_gate (mkV 0 2 0) vv)]
  rfl

/-- Closed instance of claim C10's decode clause on the v1 snapshot. -/
theorem claim_C10_witness : expectedStateV1.i16_1 = 0 :=
  claim_C10.2.2.2 (mkV 0 1 0) v1Snapshot expectedStateV1 [] (by decide)

end DV





